import Mathlib

/-!
Verification of the real-time collaboration engine core (operational
transformation, document state machine, presence and session
management), shallowly embedded from `src/server/core/collaboration.py`.

Modelling conventions:
* Python strings are `List Char`; document positions and lengths are
  naturals.  The claims under scrutiny quantify only over non-negative
  positions and lengths, and on that domain `Nat` subtraction agrees
  with Python subtraction in every branch in which the source
  subtracts (each such branch's guard makes the minuend dominate).
* `datetime` values are abstract `Nat` timestamps.
* `uuid.uuid4()` draws are modelled by explicit fresh-identifier
  parameters threaded into each function that constructs an
  `Operation` (the dataclass draws a fresh `operation_id` per
  construction via `default_factory`).
* Python `dict`s (insertion ordered) are association lists.
-/

namespace Collab

/-- The `OperationType` enum of the source (line 58). -/
inductive OperationType where
  | insert
  | delete
  | retain
  | attributes
deriving DecidableEq

/-- The `Operation` dataclass of the source (line 72).  `content` and
`length` are optional exactly as in the source; `timestamp` is an
abstract clock value; `operation_id` is the uuid drawn at construction
time. -/
structure Operation where
  type : OperationType
  position : Nat
  content : Option (List Char) := none
  length : Option Nat := none
  attributes : Option (List (String × String)) := none
  timestamp : Nat := 0
  user_id : String := ""
  operation_id : String := ""
deriving DecidableEq

/-- `OperationalTransform._handle_overlapping_deletes` (source line
263): overlapping deletes are replaced by the union delete (as the
first component) and a zero-length retain (as the second).  `u1`, `u2`
are the uuids drawn by the two `Operation(...)` constructions. -/
def handle_overlapping_deletes (op1 op2 : Operation) (u1 u2 : String) :
    Operation × Operation :=
  let start1 := op1.position
  let end1 := op1.position + op1.length.getD 0
  let start2 := op2.position
  let end2 := op2.position + op2.length.getD 0
  let union_start := min start1 start2
  let union_end := max end1 end2
  ({ type := OperationType.delete
     position := union_start
     length := some (union_end - union_start)
     timestamp := op1.timestamp
     user_id := op1.user_id
     operation_id := u1 },
   { type := OperationType.retain
     position := 0
     length := some 0
     timestamp := op2.timestamp
     user_id := op2.user_id
     operation_id := u2 })

/-- Body of `OperationalTransform.transform_operation` (source line
162).  The branch structure mirrors the source exactly; `u1` is the
uuid drawn by the first `Operation(...)` construction on the taken
path and `u2` the second (at most two are constructed).  In the two
delete shift branches and the insert-after-delete branch the source
subtracts a length from a position; there the branch guard guarantees
the minuend dominates, so `Nat` subtraction coincides with Python
subtraction.  The source recurses exactly once (the DELETE-vs-INSERT
branch swaps the arguments, and the swapped call, whose first operand
is then an INSERT, never recurses again), so the recursion is given a
structural `fuel` that the single reachable recursive call consumes;
`fuel = 1` reproduces the source function. -/
def transform_rec (fuel : Nat) (op1 op2 : Operation) (u1 u2 : String) :
    Operation × Operation :=
  if op1.type = OperationType.insert ∧ op2.type = OperationType.insert then
    if op1.position ≤ op2.position then
      (op1,
       { type := op2.type
         position := op2.position + (op1.content.getD []).length
         content := op2.content
         timestamp := op2.timestamp
         user_id := op2.user_id
         operation_id := u1 })
    else
      ({ type := op1.type
         position := op1.position + (op2.content.getD []).length
         content := op1.content
         timestamp := op1.timestamp
         user_id := op1.user_id
         operation_id := u1 }, op2)
  else if op1.type = OperationType.delete ∧ op2.type = OperationType.delete then
    if op1.position + op1.length.getD 0 ≤ op2.position then
      (op1,
       { type := op2.type
         position := op2.position - op1.length.getD 0
         length := op2.length
         timestamp := op2.timestamp
         user_id := op2.user_id
         operation_id := u1 })
    else if op2.position + op2.length.getD 0 ≤ op1.position then
      ({ type := op1.type
         position := op1.position - op2.length.getD 0
         length := op1.length
         timestamp := op1.timestamp
         user_id := op1.user_id
         operation_id := u1 }, op2)
    else
      handle_overlapping_deletes op1 op2 u1 u2
  else if op1.type = OperationType.insert ∧ op2.type = OperationType.delete then
    if op1.position ≤ op2.position then
      (op1,
       { type := op2.type
         position := op2.position + (op1.content.getD []).length
         length := op2.length
         timestamp := op2.timestamp
         user_id := op2.user_id
         operation_id := u1 })
    else if op2.position + op2.length.getD 0 ≤ op1.position then
      ({ type := op1.type
         position := op1.position - op2.length.getD 0
         content := op1.content
         timestamp := op1.timestamp
         user_id := op1.user_id
         operation_id := u1 }, op2)
    else
      ({ type := op1.type
         position := op2.position
         content := op1.content
         timestamp := op1.timestamp
         user_id := op1.user_id
         operation_id := u1 },
       { type := op2.type
         position := op2.position
         length := some (op2.length.getD 0 + (op1.content.getD []).length)
         timestamp := op2.timestamp
         user_id := op2.user_id
         operation_id := u2 })
  else if op1.type = OperationType.delete ∧ op2.type = OperationType.insert then
    match fuel with
    | 0 => (op1, op2)
    | n + 1 =>
      let p := transform_rec n op2 op1 u1 u2
      (p.2, p.1)
  else
    (op1, op2)

/-- `OperationalTransform.transform_operation` (source line 162): the
recursion body at its actual recursion depth. -/
def transform_operation (op1 op2 : Operation) (u1 u2 : String) :
    Operation × Operation :=
  transform_rec 1 op1 op2 u1 u2

/-- `OperationalTransform.apply_operation` (source line 294).  Python
slice clamping on non-negative indices is `List.take`/`List.drop` with
the same `min`-clamped bounds. -/
def apply_operation (content : List Char) (operation : Operation) :
    List Char :=
  if operation.type = OperationType.insert then
    let pos := min operation.position content.length
    content.take pos ++ operation.content.getD [] ++ content.drop pos
  else if operation.type = OperationType.delete then
    let start := min operation.position content.length
    let stop := min (start + operation.length.getD 0) content.length
    content.take start ++ content.drop stop
  else
    content

/-! Branch-level unfolding lemmas for `transform_operation`, one per
branch of the source function. -/

theorem transform_ins_ins_le (op1 op2 : Operation) (u1 u2 : String)
    (h1 : op1.type = OperationType.insert) (h2 : op2.type = OperationType.insert)
    (hle : op1.position ≤ op2.position) :
    transform_operation op1 op2 u1 u2 =
      (op1,
       { type := op2.type
         position := op2.position + (op1.content.getD []).length
         content := op2.content
         timestamp := op2.timestamp
         user_id := op2.user_id
         operation_id := u1 }) := by
  simp [transform_operation, transform_rec, h1, h2, hle]

theorem transform_ins_ins_gt (op1 op2 : Operation) (u1 u2 : String)
    (h1 : op1.type = OperationType.insert) (h2 : op2.type = OperationType.insert)
    (hgt : ¬ op1.position ≤ op2.position) :
    transform_operation op1 op2 u1 u2 =
      ({ type := op1.type
         position := op1.position + (op2.content.getD []).length
         content := op1.content
         timestamp := op1.timestamp
         user_id := op1.user_id
         operation_id := u1 }, op2) := by
  simp [transform_operation, transform_rec, h1, h2, hgt]

theorem transform_del_del_before (op1 op2 : Operation) (u1 u2 : String)
    (h1 : op1.type = OperationType.delete) (h2 : op2.type = OperationType.delete)
    (hle : op1.position + op1.length.getD 0 ≤ op2.position) :
    transform_operation op1 op2 u1 u2 =
      (op1,
       { type := op2.type
         position := op2.position - op1.length.getD 0
         length := op2.length
         timestamp := op2.timestamp
         user_id := op2.user_id
         operation_id := u1 }) := by
  simp [transform_operation, transform_rec, h1, h2, hle]

theorem transform_del_del_after (op1 op2 : Operation) (u1 u2 : String)
    (h1 : op1.type = OperationType.delete) (h2 : op2.type = OperationType.delete)
    (hgt : ¬ op1.position + op1.length.getD 0 ≤ op2.position)
    (hle : op2.position + op2.length.getD 0 ≤ op1.position) :
    transform_operation op1 op2 u1 u2 =
      ({ type := op1.type
         position := op1.position - op2.length.getD 0
         length := op1.length
         timestamp := op1.timestamp
         user_id := op1.user_id
         operation_id := u1 }, op2) := by
  simp [transform_operation, transform_rec, h1, h2, hgt, hle]

theorem transform_del_del_overlap (op1 op2 : Operation) (u1 u2 : String)
    (h1 : op1.type = OperationType.delete) (h2 : op2.type = OperationType.delete)
    (hn1 : ¬ op1.position + op1.length.getD 0 ≤ op2.position)
    (hn2 : ¬ op2.position + op2.length.getD 0 ≤ op1.position) :
    transform_operation op1 op2 u1 u2 =
      handle_overlapping_deletes op1 op2 u1 u2 := by
  simp [transform_operation, transform_rec, h1, h2, hn1, hn2]

theorem transform_ins_del_before (op1 op2 : Operation) (u1 u2 : String)
    (h1 : op1.type = OperationType.insert) (h2 : op2.type = OperationType.delete)
    (hle : op1.position ≤ op2.position) :
    transform_operation op1 op2 u1 u2 =
      (op1,
       { type := op2.type
         position := op2.position + (op1.content.getD []).length
         length := op2.length
         timestamp := op2.timestamp
         user_id := op2.user_id
         operation_id := u1 }) := by
  simp [transform_operation, transform_rec, h1, h2, hle]

theorem transform_ins_del_after (op1 op2 : Operation) (u1 u2 : String)
    (h1 : op1.type = OperationType.insert) (h2 : op2.type = OperationType.delete)
    (hgt : ¬ op1.position ≤ op2.position)
    (hge : op2.position + op2.length.getD 0 ≤ op1.position) :
    transform_operation op1 op2 u1 u2 =
      ({ type := op1.type
         position := op1.position - op2.length.getD 0
         content := op1.content
         timestamp := op1.timestamp
         user_id := op1.user_id
         operation_id := u1 }, op2) := by
  simp [transform_operation, transform_rec, h1, h2, hgt, hge]

theorem transform_ins_del_inside (op1 op2 : Operation) (u1 u2 : String)
    (h1 : op1.type = OperationType.insert) (h2 : op2.type = OperationType.delete)
    (hgt : ¬ op1.position ≤ op2.position)
    (hlt : ¬ op2.position + op2.length.getD 0 ≤ op1.position) :
    transform_operation op1 op2 u1 u2 =
      ({ type := op1.type
         position := op2.position
         content := op1.content
         timestamp := op1.timestamp
         user_id := op1.user_id
         operation_id := u1 },
       { type := op2.type
         position := op2.position
         length := some (op2.length.getD 0 + (op1.content.getD []).length)
         timestamp := op2.timestamp
         user_id := op2.user_id
         operation_id := u2 }) := by
  simp [transform_operation, transform_rec, h1, h2, hgt, hlt]

theorem transform_rec_ins_fuel (op1 op2 : Operation) (u1 u2 : String)
    (h1 : op1.type = OperationType.insert) (n m : Nat) :
    transform_rec n op1 op2 u1 u2 = transform_rec m op1 op2 u1 u2 := by
  rw [transform_rec.eq_def, transform_rec.eq_def]
  simp [h1]

theorem transform_del_ins (op1 op2 : Operation) (u1 u2 : String)
    (h1 : op1.type = OperationType.delete) (h2 : op2.type = OperationType.insert) :
    transform_operation op1 op2 u1 u2 =
      ((transform_operation op2 op1 u1 u2).2,
       (transform_operation op2 op1 u1 u2).1) := by
  conv_lhs => rw [transform_operation, transform_rec.eq_def]
  simp only [h1, h2]
  rw [transform_rec_ins_fuel op2 op1 u1 u2 h2 0 1]
  simp [transform_operation]

/-! Characterizations of `apply_operation`, split by operation type. -/

theorem apply_insert_of_le (b : List Char) (op : Operation)
    (h : op.type = OperationType.insert) (hp : op.position ≤ b.length) :
    apply_operation b op =
      b.take op.position ++ op.content.getD [] ++ b.drop op.position := by
  simp [apply_operation, h, Nat.min_eq_left hp]

theorem apply_delete_of_le (b : List Char) (op : Operation)
    (h : op.type = OperationType.delete)
    (hp : op.position + op.length.getD 0 ≤ b.length) :
    apply_operation b op =
      b.take op.position ++ b.drop (op.position + op.length.getD 0) := by
  have h1 : op.position ≤ b.length := le_trans (Nat.le_add_right _ _) hp
  simp only [apply_operation, h, reduceIte]
  rw [Nat.min_eq_left h1, Nat.min_eq_left hp]
  simp

theorem apply_not_ins_del (b : List Char) (op : Operation)
    (h1 : op.type ≠ OperationType.insert) (h2 : op.type ≠ OperationType.delete) :
    apply_operation b op = b := by
  simp [apply_operation, h1, h2]

theorem length_apply_insert_of_le (b : List Char) (op : Operation)
    (h : op.type = OperationType.insert) (hp : op.position ≤ b.length) :
    (apply_operation b op).length = b.length + (op.content.getD []).length := by
  rw [apply_insert_of_le b op h hp]
  simp
  omega

theorem length_apply_delete_of_le (b : List Char) (op : Operation)
    (h : op.type = OperationType.delete)
    (hp : op.position + op.length.getD 0 ≤ b.length) :
    (apply_operation b op).length = b.length - op.length.getD 0 := by
  rw [apply_delete_of_le b op h hp]
  simp
  omega

/-- Claim C3: `apply_operation` is total by construction and realizes
the clamped splice semantics — an Insert splices at
`min(position, len(content))`, a Delete removes the clamped range
`[min(position,len), min(start+length,len))`, any other type (Retain,
and the fall-through Attributes case) returns the content unchanged —
and the output length is exactly determined by the clamped bounds. -/
theorem apply_operation_total_clamped (content : List Char) (operation : Operation) :
    (operation.type = OperationType.insert →
      apply_operation content operation =
        content.take (min operation.position content.length) ++
          operation.content.getD [] ++
          content.drop (min operation.position content.length) ∧
      (apply_operation content operation).length =
        content.length + (operation.content.getD []).length) ∧
    (operation.type = OperationType.delete →
      apply_operation content operation =
        content.take (min operation.position content.length) ++
          content.drop (min (min operation.position content.length +
            operation.length.getD 0) content.length) ∧
      (apply_operation content operation).length =
        content.length -
          (min (min operation.position content.length + operation.length.getD 0)
              content.length -
            min operation.position content.length)) ∧
    (operation.type ≠ OperationType.insert →
      operation.type ≠ OperationType.delete →
      apply_operation content operation = content) := by
  refine ⟨fun h => ⟨?_, ?_⟩, fun h => ⟨?_, ?_⟩, fun h1 h2 => apply_not_ins_del _ _ h1 h2⟩
  · simp [apply_operation, h]
  · simp [apply_operation, h]
    omega
  · simp [apply_operation, h]
  · simp [apply_operation, h]
    omega

/-- Claim C2 counterexample: two Delete operations with adjacent
ranges `[0,2)` and `[2,5)` are NOT merged into a single union Delete
with a Retain no-op, contrary to the claim's "overlap **or adjacent**"
merge condition: the source's guard `op1.position + op1.length <=
op2.position` already covers the adjacent case, so the later delete is
merely shifted left and the second output is still a Delete. -/
theorem adjacent_deletes_not_merged :
    (transform_operation
        { type := OperationType.delete, position := 0, length := some 2 }
        { type := OperationType.delete, position := 2, length := some 3 }
        "u" "v").2.type ≠ OperationType.retain ∧
    (transform_operation
        { type := OperationType.delete, position := 0, length := some 2 }
        { type := OperationType.delete, position := 2, length := some 3 }
        "u" "v") =
      ({ type := OperationType.delete, position := 0, length := some 2 },
       { type := OperationType.delete, position := 0, length := some 3,
         operation_id := "u" }) := by
  decide

/-- Claim C2 (amended): for two Delete operations, if the earlier
range ends at or before the later range starts (disjoint **or
adjacent**), the later operation's position is shifted left by the
earlier range's length and the earlier operation is returned
unchanged; only strictly overlapping ranges are merged into a single
union Delete `[min(s1,s2), max(e1,e2))` as `opA'` with `opB'`
degenerating to a Retain of length 0. -/
theorem transform_delete_delete_rules (opA opB : Operation) (u1 u2 : String)
    (hA : opA.type = OperationType.delete) (hB : opB.type = OperationType.delete) :
    (opA.position + opA.length.getD 0 ≤ opB.position →
      transform_operation opA opB u1 u2 =
        (opA,
         { type := OperationType.delete
           position := opB.position - opA.length.getD 0
           length := opB.length
           timestamp := opB.timestamp
           user_id := opB.user_id
           operation_id := u1 })) ∧
    (¬ opA.position + opA.length.getD 0 ≤ opB.position →
      opB.position + opB.length.getD 0 ≤ opA.position →
      transform_operation opA opB u1 u2 =
        ({ type := OperationType.delete
           position := opA.position - opB.length.getD 0
           length := opA.length
           timestamp := opA.timestamp
           user_id := opA.user_id
           operation_id := u1 }, opB)) ∧
    (¬ opA.position + opA.length.getD 0 ≤ opB.position →
      ¬ opB.position + opB.length.getD 0 ≤ opA.position →
      transform_operation opA opB u1 u2 =
        ({ type := OperationType.delete
           position := min opA.position opB.position
           length := some (max (opA.position + opA.length.getD 0)
               (opB.position + opB.length.getD 0) -
             min opA.position opB.position)
           timestamp := opA.timestamp
           user_id := opA.user_id
           operation_id := u1 },
         { type := OperationType.retain
           position := 0
           length := some 0
           timestamp := opB.timestamp
           user_id := opB.user_id
           operation_id := u2 })) := by
  refine ⟨fun h => ?_, fun hn h => ?_, fun hn1 hn2 => ?_⟩
  · rw [transform_del_del_before opA opB u1 u2 hA hB h, hB]
  · rw [transform_del_del_after opA opB u1 u2 hA hB hn h, hA]
  · rw [transform_del_del_overlap opA opB u1 u2 hA hB hn1 hn2]
    simp [handle_overlapping_deletes]

/-- Witness for the amended C2 rules at concrete inputs: deletes
`[0,2)` and `[5,1)` are disjoint, so the later is shifted to position
3 and the earlier is unchanged. -/
theorem transform_delete_delete_rules_witness :
    transform_operation
        { type := OperationType.delete, position := 0, length := some 2 }
        { type := OperationType.delete, position := 5, length := some 1 }
        "u" "v" =
      ({ type := OperationType.delete, position := 0, length := some 2 },
       { type := OperationType.delete, position := 3, length := some 1,
         operation_id := "u" }) :=
  (transform_delete_delete_rules
    { type := OperationType.delete, position := 0, length := some 2 }
    { type := OperationType.delete, position := 5, length := some 1 }
    "u" "v" rfl rfl).1 (by decide)

/-- The projection of an `Operation` that forgets the freshly drawn
`operation_id` uuid. -/
def erase_operation_id (op : Operation) : Operation :=
  { op with operation_id := "" }

/-- Both components of `transform_rec` are independent of the supplied
fresh uuids once `operation_id` is forgotten. -/
theorem transform_rec_deterministic_mod_id (fuel : Nat) :
    ∀ (op1 op2 : Operation) (u1 u2 v1 v2 : String),
      erase_operation_id (transform_rec fuel op1 op2 u1 u2).1 =
        erase_operation_id (transform_rec fuel op1 op2 v1 v2).1 ∧
      erase_operation_id (transform_rec fuel op1 op2 u1 u2).2 =
        erase_operation_id (transform_rec fuel op1 op2 v1 v2).2 := by
  induction fuel with
  | zero =>
    intro op1 op2 u1 u2 v1 v2
    rw [transform_rec.eq_def, transform_rec.eq_def]
    split_ifs <;>
      simp [erase_operation_id, handle_overlapping_deletes]
  | succ n ih =>
    intro op1 op2 u1 u2 v1 v2
    rw [transform_rec.eq_def, transform_rec.eq_def]
    split_ifs
    all_goals
      try exact ⟨(ih op2 op1 u1 u2 v1 v2).2, (ih op2 op1 u1 u2 v1 v2).1⟩
    all_goals simp [erase_operation_id, handle_overlapping_deletes]

/-- Claim C4 counterexample: `transform_operation` is NOT
field-for-field deterministic across calls — the `operation_id` of
each newly constructed output is a fresh `uuid4()` draw (modelled by
the explicit uuid parameters), so two calls on equal input operations
return unequal outputs. -/
theorem transform_fresh_uuid_nondeterminism :
    transform_operation
        { type := OperationType.insert, position := 0, content := some ['a'] }
        { type := OperationType.insert, position := 1, content := some ['b'] }
        "a" "b" ≠
      transform_operation
        { type := OperationType.insert, position := 0, content := some ['a'] }
        { type := OperationType.insert, position := 1, content := some ['b'] }
        "c" "d" := by
  decide

/-- Claim C4 (amended): `transform_operation` never mutates its input
operations (it only constructs new `Operation` values — in this
functional embedding every construct is fresh), and it is
deterministic in every output field except `operation_id`, which is a
fresh uuid draw per constructed operation: two calls on equal inputs
agree on both output components once `operation_id` is forgotten. -/
theorem transform_deterministic_mod_id (op1 op2 : Operation) (u1 u2 v1 v2 : String) :
    erase_operation_id (transform_operation op1 op2 u1 u2).1 =
      erase_operation_id (transform_operation op1 op2 v1 v2).1 ∧
    erase_operation_id (transform_operation op1 op2 u1 u2).2 =
      erase_operation_id (transform_operation op1 op2 v1 v2).2 :=
  transform_rec_deterministic_mod_id 1 op1 op2 u1 u2 v1 v2

/-! List splice algebra used for the convergence proof: a cut point
`p ≤ q` decomposes takes and drops into adjacent segments. -/

theorem take_boundary (b : List Char) (p q : Nat) (h : p ≤ q) :
    b.take q = b.take p ++ (b.drop p).take (q - p) := by
  conv_lhs => rw [show q = p + (q - p) from by omega]
  rw [List.take_add]

theorem drop_boundary (b : List Char) (p q : Nat) (h : p ≤ q) :
    b.drop p = (b.drop p).take (q - p) ++ b.drop q := by
  conv_rhs =>
    rw [show b.drop q = (b.drop p).drop (q - p) from by
      rw [List.drop_drop]
      congr 1
      omega]
  rw [List.take_append_drop]

/-- Convergence core, insert vs insert, first position not after the
second: splicing `sA` at `pA` and then `sB` at `pB + |sA|` agrees with
splicing `sB` at `pB` and then `sA` at `pA`. -/
theorem conv_ins_ins_core (b sA sB : List Char) (pA pB : Nat)
    (hle : pA ≤ pB) (hB : pB ≤ b.length) :
    (b.take pA ++ sA ++ b.drop pA).take (pB + sA.length) ++ sB ++
        (b.take pA ++ sA ++ b.drop pA).drop (pB + sA.length) =
      (b.take pB ++ sB ++ b.drop pB).take pA ++ sA ++
        (b.take pB ++ sB ++ b.drop pB).drop pA := by
  rw [drop_boundary b pA pB hle, take_boundary b pA pB hle]
  set x := b.take pA with hxd
  set y := (b.drop pA).take (pB - pA) with hyd
  set z := b.drop pB with hzd
  have hx : x.length = pA := by
    rw [hxd]
    simp
    omega
  have hy : y.length = pB - pA := by
    rw [hyd]
    simp
    omega
  rw [show pB + sA.length = x.length + (sA.length + y.length) from by omega,
    show pA = x.length from hx.symm]
  simp only [List.take_append, List.drop_append, List.take_left, List.drop_left,
    List.append_assoc]

/-- Convergence core, delete vs delete with the first range ending at
or before the second range's start: deleting `[pA, pA+lA)` and then
the shifted `[pB-lA, pB-lA+lB)` agrees with deleting `[pB, pB+lB)` and
then `[pA, pA+lA)`. -/
theorem conv_del_del_core (b : List Char) (pA lA pB lB : Nat)
    (hsep : pA + lA ≤ pB) (hB : pB + lB ≤ b.length) :
    (b.take pA ++ b.drop (pA + lA)).take (pB - lA) ++
        (b.take pA ++ b.drop (pA + lA)).drop (pB - lA + lB) =
      (b.take pB ++ b.drop (pB + lB)).take pA ++
        (b.take pB ++ b.drop (pB + lB)).drop (pA + lA) := by
  rw [drop_boundary b (pA + lA) pB hsep, drop_boundary b pB (pB + lB) (by omega),
    take_boundary b (pA + lA) pB hsep, take_boundary b pA (pA + lA) (by omega)]
  set x := b.take pA with hxd
  set d1 := (b.drop pA).take (pA + lA - pA) with hd1d
  set y := (b.drop (pA + lA)).take (pB - (pA + lA)) with hyd
  set d2 := (b.drop pB).take (pB + lB - pB) with hd2d
  set z := b.drop (pB + lB) with hzd
  have hx : x.length = pA := by
    rw [hxd]
    simp
    omega
  have hd1 : d1.length = lA := by
    rw [hd1d]
    simp
    omega
  have hy : y.length = pB - (pA + lA) := by
    rw [hyd]
    simp
    omega
  have hd2 : d2.length = lB := by
    rw [hd2d]
    simp
    omega
  rw [show pB - lA + lB = x.length + (y.length + d2.length) from by omega,
    show pB - lA = x.length + y.length from by omega,
    show pA + lA = x.length + d1.length from by omega,
    show pA = x.length from hx.symm]
  simp only [List.take_append, List.drop_append, List.take_left, List.drop_left,
    List.append_assoc]

/-- Convergence core, insert at or before a delete's start: splicing
`sA` at `pA` and then deleting `[pB+|sA|, pB+|sA|+lB)` agrees with
deleting `[pB, pB+lB)` and then splicing `sA` at `pA`. -/
theorem conv_ins_del_before_core (b sA : List Char) (pA pB lB : Nat)
    (hle : pA ≤ pB) (hB : pB + lB ≤ b.length) :
    (b.take pA ++ sA ++ b.drop pA).take (pB + sA.length) ++
        (b.take pA ++ sA ++ b.drop pA).drop (pB + sA.length + lB) =
      (b.take pB ++ b.drop (pB + lB)).take pA ++ sA ++
        (b.take pB ++ b.drop (pB + lB)).drop pA := by
  rw [drop_boundary b pA pB hle, drop_boundary b pB (pB + lB) (by omega),
    take_boundary b pA pB hle]
  set x := b.take pA with hxd
  set y := (b.drop pA).take (pB - pA) with hyd
  set d := (b.drop pB).take (pB + lB - pB) with hdd
  set z := b.drop (pB + lB) with hzd
  have hx : x.length = pA := by
    rw [hxd]
    simp
    omega
  have hy : y.length = pB - pA := by
    rw [hyd]
    simp
    omega
  have hd : d.length = lB := by
    rw [hdd]
    simp
    omega
  rw [show pB + sA.length + lB = x.length + (sA.length + (y.length + d.length))
      from by omega,
    show pB + sA.length = x.length + (sA.length + y.length) from by omega,
    show pA = x.length from hx.symm]
  simp only [List.take_append, List.drop_append, List.take_left, List.drop_left,
    List.append_assoc]

/-- Convergence core, insert at or after a delete's end: splicing `sA`
at `pA` and then deleting `[pB, pB+lB)` agrees with deleting
`[pB, pB+lB)` and then splicing `sA` at `pA - lB`. -/
theorem conv_ins_del_after_core (b sA : List Char) (pA pB lB : Nat)
    (hge : pB + lB ≤ pA) (hA : pA ≤ b.length) :
    (b.take pA ++ sA ++ b.drop pA).take pB ++
        (b.take pA ++ sA ++ b.drop pA).drop (pB + lB) =
      (b.take pB ++ b.drop (pB + lB)).take (pA - lB) ++ sA ++
        (b.take pB ++ b.drop (pB + lB)).drop (pA - lB) := by
  rw [drop_boundary b (pB + lB) pA hge, take_boundary b (pB + lB) pA hge,
    take_boundary b pB (pB + lB) (by omega)]
  set x := b.take pB with hxd
  set d := (b.drop pB).take (pB + lB - pB) with hdd
  set y := (b.drop (pB + lB)).take (pA - (pB + lB)) with hyd
  set z := b.drop pA with hzd
  have hx : x.length = pB := by
    rw [hxd]
    simp
    omega
  have hd : d.length = lB := by
    rw [hdd]
    simp
    omega
  have hy : y.length = pA - (pB + lB) := by
    rw [hyd]
    simp
    omega
  rw [show pB + lB = x.length + d.length from by omega,
    show pA - lB = x.length + y.length from by omega,
    show pB = x.length from hx.symm]
  simp only [List.take_append, List.drop_append, List.take_left, List.drop_left,
    List.append_assoc]

/-- Convergence for two concurrent inserts, both in bounds. -/
theorem converge_ins_ins (b : List Char) (opA opB : Operation) (u1 u2 : String)
    (hAt : opA.type = OperationType.insert) (hBt : opB.type = OperationType.insert)
    (hAp : opA.position ≤ b.length) (hBp : opB.position ≤ b.length) :
    apply_operation (apply_operation b opA) (transform_operation opA opB u1 u2).2 =
      apply_operation (apply_operation b opB) (transform_operation opA opB u1 u2).1 := by
  obtain ⟨tA, pA, cA, lA, aA, tsA, uA, oA⟩ := opA
  obtain ⟨tB, pB, cB, lB, aB, tsB, uB, oB⟩ := opB
  simp only at hAt hBt hAp hBp
  subst hAt
  subst hBt
  by_cases hle : pA ≤ pB
  · rw [transform_ins_ins_le ⟨OperationType.insert, pA, cA, lA, aA, tsA, uA, oA⟩
      ⟨OperationType.insert, pB, cB, lB, aB, tsB, uB, oB⟩ u1 u2 rfl rfl hle]
    dsimp only
    rw [apply_insert_of_le b ⟨OperationType.insert, pA, cA, lA, aA, tsA, uA, oA⟩ rfl hAp,
      apply_insert_of_le b ⟨OperationType.insert, pB, cB, lB, aB, tsB, uB, oB⟩ rfl hBp]
    dsimp only
    rw [apply_insert_of_le (b.take pA ++ cA.getD [] ++ b.drop pA)
      ⟨OperationType.insert, pB + (cA.getD []).length, cB, none, none, tsB, uB, u1⟩ rfl
      (by simp; omega)]
    rw [apply_insert_of_le (b.take pB ++ cB.getD [] ++ b.drop pB)
      ⟨OperationType.insert, pA, cA, lA, aA, tsA, uA, oA⟩ rfl (by simp; omega)]
    dsimp only
    exact conv_ins_ins_core b (cA.getD []) (cB.getD []) pA pB hle hBp
  · rw [transform_ins_ins_gt ⟨OperationType.insert, pA, cA, lA, aA, tsA, uA, oA⟩
      ⟨OperationType.insert, pB, cB, lB, aB, tsB, uB, oB⟩ u1 u2 rfl rfl hle]
    dsimp only
    rw [apply_insert_of_le b ⟨OperationType.insert, pA, cA, lA, aA, tsA, uA, oA⟩ rfl hAp,
      apply_insert_of_le b ⟨OperationType.insert, pB, cB, lB, aB, tsB, uB, oB⟩ rfl hBp]
    dsimp only
    rw [apply_insert_of_le (b.take pA ++ cA.getD [] ++ b.drop pA)
      ⟨OperationType.insert, pB, cB, lB, aB, tsB, uB, oB⟩ rfl (by simp; omega)]
    rw [apply_insert_of_le (b.take pB ++ cB.getD [] ++ b.drop pB)
      ⟨OperationType.insert, pA + (cB.getD []).length, cA, none, none, tsA, uA, u1⟩ rfl
      (by simp; omega)]
    dsimp only
    exact (conv_ins_ins_core b (cB.getD []) (cA.getD []) pB pA (by omega) hAp).symm

/-- Convergence for an in-bounds insert (`opA`) against an in-bounds
delete (`opB`) whose range does not strictly contain the insert
position. -/
theorem converge_ins_del (b : List Char) (opA opB : Operation) (u1 u2 : String)
    (hAt : opA.type = OperationType.insert) (hBt : opB.type = OperationType.delete)
    (hAp : opA.position ≤ b.length)
    (hBp : opB.position + opB.length.getD 0 ≤ b.length)
    (hout : opA.position ≤ opB.position ∨
      opB.position + opB.length.getD 0 ≤ opA.position) :
    apply_operation (apply_operation b opA) (transform_operation opA opB u1 u2).2 =
      apply_operation (apply_operation b opB) (transform_operation opA opB u1 u2).1 := by
  obtain ⟨tA, pA, cA, lA, aA, tsA, uA, oA⟩ := opA
  obtain ⟨tB, pB, cB, lB, aB, tsB, uB, oB⟩ := opB
  simp only at hAt hBt hAp hBp hout
  subst hAt
  subst hBt
  by_cases hle : pA ≤ pB
  · rw [transform_ins_del_before ⟨OperationType.insert, pA, cA, lA, aA, tsA, uA, oA⟩
      ⟨OperationType.delete, pB, cB, lB, aB, tsB, uB, oB⟩ u1 u2 rfl rfl hle]
    dsimp only
    rw [apply_insert_of_le b ⟨OperationType.insert, pA, cA, lA, aA, tsA, uA, oA⟩ rfl hAp,
      apply_delete_of_le b ⟨OperationType.delete, pB, cB, lB, aB, tsB, uB, oB⟩ rfl hBp]
    dsimp only
    rw [apply_delete_of_le (b.take pA ++ cA.getD [] ++ b.drop pA)
      ⟨OperationType.delete, pB + (cA.getD []).length, none, lB, none, tsB, uB, u1⟩ rfl
      (by simp; omega)]
    rw [apply_insert_of_le (b.take pB ++ b.drop (pB + lB.getD 0))
      ⟨OperationType.insert, pA, cA, lA, aA, tsA, uA, oA⟩ rfl (by simp; omega)]
    dsimp only
    exact conv_ins_del_before_core b (cA.getD []) pA pB (lB.getD 0) hle hBp
  · have hge : pB + lB.getD 0 ≤ pA := by
      rcases hout with h | h
      · omega
      · exact h
    rw [transform_ins_del_after ⟨OperationType.insert, pA, cA, lA, aA, tsA, uA, oA⟩
      ⟨OperationType.delete, pB, cB, lB, aB, tsB, uB, oB⟩ u1 u2 rfl rfl hle hge]
    dsimp only
    rw [apply_insert_of_le b ⟨OperationType.insert, pA, cA, lA, aA, tsA, uA, oA⟩ rfl hAp,
      apply_delete_of_le b ⟨OperationType.delete, pB, cB, lB, aB, tsB, uB, oB⟩ rfl hBp]
    dsimp only
    rw [apply_delete_of_le (b.take pA ++ cA.getD [] ++ b.drop pA)
      ⟨OperationType.delete, pB, cB, lB, aB, tsB, uB, oB⟩ rfl (by simp; omega)]
    rw [apply_insert_of_le (b.take pB ++ b.drop (pB + lB.getD 0))
      ⟨OperationType.insert, pA - lB.getD 0, cA, none, none, tsA, uA, u1⟩ rfl
      (by simp; omega)]
    dsimp only
    exact conv_ins_del_after_core b (cA.getD []) pA pB (lB.getD 0) hge hAp

/-- Convergence for two in-bounds deletes whose ranges do not strictly
overlap. -/
theorem converge_del_del (b : List Char) (opA opB : Operation) (u1 u2 : String)
    (hAt : opA.type = OperationType.delete) (hBt : opB.type = OperationType.delete)
    (hAp : opA.position + opA.length.getD 0 ≤ b.length)
    (hBp : opB.position + opB.length.getD 0 ≤ b.length)
    (hsep : opA.position + opA.length.getD 0 ≤ opB.position ∨
      opB.position + opB.length.getD 0 ≤ opA.position) :
    apply_operation (apply_operation b opA) (transform_operation opA opB u1 u2).2 =
      apply_operation (apply_operation b opB) (transform_operation opA opB u1 u2).1 := by
  obtain ⟨tA, pA, cA, lA, aA, tsA, uA, oA⟩ := opA
  obtain ⟨tB, pB, cB, lB, aB, tsB, uB, oB⟩ := opB
  simp only at hAt hBt hAp hBp hsep
  subst hAt
  subst hBt
  by_cases h1 : pA + lA.getD 0 ≤ pB
  · rw [transform_del_del_before ⟨OperationType.delete, pA, cA, lA, aA, tsA, uA, oA⟩
      ⟨OperationType.delete, pB, cB, lB, aB, tsB, uB, oB⟩ u1 u2 rfl rfl h1]
    dsimp only
    rw [apply_delete_of_le b ⟨OperationType.delete, pA, cA, lA, aA, tsA, uA, oA⟩ rfl hAp,
      apply_delete_of_le b ⟨OperationType.delete, pB, cB, lB, aB, tsB, uB, oB⟩ rfl hBp]
    dsimp only
    rw [apply_delete_of_le (b.take pA ++ b.drop (pA + lA.getD 0))
      ⟨OperationType.delete, pB - lA.getD 0, none, lB, none, tsB, uB, u1⟩ rfl
      (by simp; omega)]
    rw [apply_delete_of_le (b.take pB ++ b.drop (pB + lB.getD 0))
      ⟨OperationType.delete, pA, cA, lA, aA, tsA, uA, oA⟩ rfl (by simp; omega)]
    dsimp only
    exact conv_del_del_core b pA (lA.getD 0) pB (lB.getD 0) h1 hBp
  · have h2 : pB + lB.getD 0 ≤ pA := by
      rcases hsep with h | h
      · omega
      · exact h
    rw [transform_del_del_after ⟨OperationType.delete, pA, cA, lA, aA, tsA, uA, oA⟩
      ⟨OperationType.delete, pB, cB, lB, aB, tsB, uB, oB⟩ u1 u2 rfl rfl h1 h2]
    dsimp only
    rw [apply_delete_of_le b ⟨OperationType.delete, pA, cA, lA, aA, tsA, uA, oA⟩ rfl hAp,
      apply_delete_of_le b ⟨OperationType.delete, pB, cB, lB, aB, tsB, uB, oB⟩ rfl hBp]
    dsimp only
    rw [apply_delete_of_le (b.take pA ++ b.drop (pA + lA.getD 0))
      ⟨OperationType.delete, pB, cB, lB, aB, tsB, uB, oB⟩ rfl (by simp; omega)]
    rw [apply_delete_of_le (b.take pB ++ b.drop (pB + lB.getD 0))
      ⟨OperationType.delete, pA - lB.getD 0, none, lA, none, tsA, uA, u1⟩ rfl
      (by simp; omega)]
    dsimp only
    exact (conv_del_del_core b pB (lB.getD 0) pA (lA.getD 0) h2 hAp).symm

/-- An operation "generated against" a document content: an Insert or
a Delete whose (non-negative) range fits the content it was generated
for. -/
def generated_against (base : List Char) (op : Operation) : Prop :=
  (op.type = OperationType.insert ∧ op.position ≤ base.length) ∨
  (op.type = OperationType.delete ∧
    op.position + op.length.getD 0 ≤ base.length)

/-- The documented overlapping-delete configuration: two deletes whose
ranges strictly overlap (neither range ends at or before the other's
start), exactly the source's `_handle_overlapping_deletes` guard. -/
def overlapping_deletes (opA opB : Operation) : Prop :=
  opA.type = OperationType.delete ∧ opB.type = OperationType.delete ∧
  ¬ opA.position + opA.length.getD 0 ≤ opB.position ∧
  ¬ opB.position + opB.length.getD 0 ≤ opA.position

/-- An insert falling strictly inside a concurrent delete's range
(the source's "Insert inside delete range" branch). -/
def insert_inside_delete (opI opD : Operation) : Prop :=
  opI.type = OperationType.insert ∧ opD.type = OperationType.delete ∧
  opD.position < opI.position ∧
  opI.position < opD.position + opD.length.getD 0

instance (base : List Char) (op : Operation) :
    Decidable (generated_against base op) := by
  unfold generated_against
  infer_instance

instance (opA opB : Operation) : Decidable (overlapping_deletes opA opB) := by
  unfold overlapping_deletes
  infer_instance

instance (opI opD : Operation) : Decidable (insert_inside_delete opI opD) := by
  unfold insert_inside_delete
  infer_instance

/-- Claim C1 counterexample: convergence fails outside the documented
overlapping-delete case.  For base `"hello"`, `A = Insert("X" at 2)`
and `B = Delete([0,5))` — a pair of valid operations that is not two
overlapping deletes — applying `A` then `B'` yields `""` while
applying `B` then `A'` yields `"X"`: the delete absorbs the concurrent
inline insertion, so the two application orders disagree. -/
theorem convergence_fails_insert_inside_delete :
    (¬ overlapping_deletes
        { type := OperationType.insert, position := 2, content := some ['X'] }
        { type := OperationType.delete, position := 0, length := some 5 }) ∧
    generated_against ['h','e','l','l','o']
      { type := OperationType.insert, position := 2, content := some ['X'] } ∧
    generated_against ['h','e','l','l','o']
      { type := OperationType.delete, position := 0, length := some 5 } ∧
    apply_operation
        (apply_operation ['h','e','l','l','o']
          { type := OperationType.insert, position := 2, content := some ['X'] })
        (transform_operation
          { type := OperationType.insert, position := 2, content := some ['X'] }
          { type := OperationType.delete, position := 0, length := some 5 }
          "u" "v").2 ≠
      apply_operation
        (apply_operation ['h','e','l','l','o']
          { type := OperationType.delete, position := 0, length := some 5 })
        (transform_operation
          { type := OperationType.insert, position := 2, content := some ['X'] }
          { type := OperationType.delete, position := 0, length := some 5 }
          "u" "v").1 := by
  refine ⟨?_, ?_, ?_, ?_⟩ <;> decide

/-- Claim C1 (amended): for every base string and every pair of
Insert/Delete operations generated against it, applying `A` then `B'`
agrees with applying `B` then `A'` (where `(A', B') =
transform_operation(A, B)`), except in two documented-by-the-code
configurations: (i) strictly overlapping deletes, whose output is
defined by the union rule, and (ii) an insert falling strictly inside
a concurrent delete's range (in either argument order), where the
delete absorbs the insertion and the two application orders differ. -/
theorem transform_convergence (base : List Char) (opA opB : Operation)
    (u1 u2 : String)
    (hA : generated_against base opA) (hB : generated_against base opB) :
    (¬ overlapping_deletes opA opB →
      ¬ insert_inside_delete opA opB →
      ¬ insert_inside_delete opB opA →
      apply_operation (apply_operation base opA)
          (transform_operation opA opB u1 u2).2 =
        apply_operation (apply_operation base opB)
          (transform_operation opA opB u1 u2).1) ∧
    (overlapping_deletes opA opB →
      transform_operation opA opB u1 u2 =
        ({ type := OperationType.delete
           position := min opA.position opB.position
           length := some (max (opA.position + opA.length.getD 0)
               (opB.position + opB.length.getD 0) -
             min opA.position opB.position)
           timestamp := opA.timestamp
           user_id := opA.user_id
           operation_id := u1 },
         { type := OperationType.retain
           position := 0
           length := some 0
           timestamp := opB.timestamp
           user_id := opB.user_id
           operation_id := u2 })) := by
  constructor
  case right =>
    rintro ⟨hAt, hBt, hn1, hn2⟩
    rw [transform_del_del_overlap opA opB u1 u2 hAt hBt hn1 hn2]
    simp [handle_overlapping_deletes]
  case left =>
  intro hnd hiA hiB
  rcases hA with ⟨hAt, hAp⟩ | ⟨hAt, hAp⟩ <;> rcases hB with ⟨hBt, hBp⟩ | ⟨hBt, hBp⟩
  · exact converge_ins_ins base opA opB u1 u2 hAt hBt hAp hBp
  · have hout : opA.position ≤ opB.position ∨
        opB.position + opB.length.getD 0 ≤ opA.position := by
      by_contra hcon
      push_neg at hcon
      exact hiA ⟨hAt, hBt, hcon.1, hcon.2⟩
    exact converge_ins_del base opA opB u1 u2 hAt hBt hAp hBp hout
  · have hout : opB.position ≤ opA.position ∨
        opA.position + opA.length.getD 0 ≤ opB.position := by
      by_contra hcon
      push_neg at hcon
      exact hiB ⟨hBt, hAt, hcon.1, hcon.2⟩
    rw [transform_del_ins opA opB u1 u2 hAt hBt]
    dsimp only
    exact (converge_ins_del base opB opA u1 u2 hBt hAt hBp hAp hout).symm
  · have hsep : opA.position + opA.length.getD 0 ≤ opB.position ∨
        opB.position + opB.length.getD 0 ≤ opA.position := by
      by_contra hcon
      push_neg at hcon
      exact hnd ⟨hAt, hBt, by omega, by omega⟩
    exact converge_del_del base opA opB u1 u2 hAt hBt hAp hBp hsep

/-- Witness for the amended convergence theorem at a concrete input
(the spec's Scenario 1): base `""`, `A = Insert("cat" at 0)`, `B =
Insert("dog" at 0)`; both application orders produce `"catdog"`. -/
theorem transform_convergence_witness :
    apply_operation
        (apply_operation []
          { type := OperationType.insert, position := 0, content := some ['c','a','t'] })
        (transform_operation
          { type := OperationType.insert, position := 0, content := some ['c','a','t'] }
          { type := OperationType.insert, position := 0, content := some ['d','o','g'] }
          "u" "v").2 =
      apply_operation
        (apply_operation []
          { type := OperationType.insert, position := 0, content := some ['d','o','g'] })
        (transform_operation
          { type := OperationType.insert, position := 0, content := some ['c','a','t'] }
          { type := OperationType.insert, position := 0, content := some ['d','o','g'] }
          "u" "v").1 :=
  (transform_convergence []
    { type := OperationType.insert, position := 0, content := some ['c','a','t'] }
    { type := OperationType.insert, position := 0, content := some ['d','o','g'] }
    "u" "v" (by decide) (by decide)).1 (by decide) (by decide) (by decide)

/-! ## Engine layer

Python `dict`s are insertion-ordered association lists; assignment
replaces the first (unique) matching key in place or appends, `del`
removes the key, `list.remove` erases the first occurrence. -/

def dict_set {β : Type} (k : String) (v : β) :
    List (String × β) → List (String × β)
  | [] => [(k, v)]
  | (k', v') :: rest =>
    if k' = k then (k, v) :: rest else (k', v') :: dict_set k v rest

def dict_del {β : Type} (k : String) (l : List (String × β)) :
    List (String × β) :=
  l.filter fun p => p.1 != k

/-- The `PresenceStatus` enum of the source (line 65). -/
inductive PresenceStatus where
  | online
  | away
  | busy
  | offline
deriving DecidableEq

/-- The `UserPresence` dataclass of the source (line 84). -/
structure UserPresence where
  user_id : String
  username : String
  status : PresenceStatus
  cursor_position : Nat := 0
  selection_start : Nat := 0
  selection_end : Nat := 0
  last_seen : Nat := 0
  avatar_color : String := "#6B7280"
  current_document : Option String := none
  active : Bool := true
deriving DecidableEq

/-- The `DocumentState` dataclass of the source (line 98):
`operations` is a `deque(maxlen=1000)` (oldest first) and
`pending_operations` a list trimmed to its last 10 entries by
`_apply_operational_transformation`. -/
structure DocumentState where
  document_id : String
  content : List Char
  version : Nat
  operations : List Operation := []
  active_users : List (String × UserPresence) := []
  pending_operations : List Operation := []
  last_modified : Nat := 0
  conflict_resolution_needed : Bool := false
deriving DecidableEq

/-- The `WorkspaceState` dataclass of the source (line 110). -/
structure WorkspaceState where
  workspace_id : String
  name : String
  active_users : List (String × UserPresence) := []
  documents : List (String × DocumentState) := []
  permissions : List (String × List String) := []
  created_at : Nat := 0
  last_activity : Nat := 0
deriving DecidableEq

/-- The identity-relevant state of a `WebSocketConnection` (source
line 131): its authenticated user, its workspace binding and the
activity flag. -/
structure ConnectionState where
  user_id : String
  username : String
  workspace_id : String
  is_active : Bool := true
deriving DecidableEq

/-- The connection/workspace registries of `CollaborationEngine`
(source lines 331-336).  `user_connections` and
`workspace_connections` are `defaultdict(list)`: a missing key reads
as `[]`. -/
structure EngineState where
  connections : List (String × ConnectionState) := []
  user_connections : List (String × List String) := []
  workspace_connections : List (String × List String) := []
  workspaces : List (String × WorkspaceState) := []
deriving DecidableEq

/-- Outbound messages produced by the handlers modelled here. -/
inductive OutMessage where
  | operation_broadcast (document_id : String) (op : Operation)
  | cursor_update (user_id : String) (document_id : Option String)
      (position selection_start selection_end : Nat)
  | user_left (user_id : String)
  | user_joined (user_id username avatar_color : String)
  | initial_state (workspace_id name : String)
      (active_users : List (String × String × PresenceStatus × String × Nat))
      (documents : List String)
  | pong (timestamp : Nat)
deriving DecidableEq

/-- `CollaborationEngine._broadcast_to_workspace` (source line 663):
best-effort fan-out of one message to every active connection
registered under the workspace, skipping (when `exclude_user` is set)
the excluded user's connections.  The result lists the
`(connection_id, message)` sends performed. -/
def broadcast_to_workspace (st : EngineState) (workspace_id : String)
    (message : OutMessage) (exclude_user : Option String) :
    List (String × OutMessage) :=
  ((st.workspace_connections.lookup workspace_id).getD []).filterMap
    fun conn_id =>
      match st.connections.lookup conn_id with
      | none => none
      | some connection =>
        if connection.is_active then
          match exclude_user with
          | some ex =>
            if ex ≠ "" ∧ connection.user_id = ex then none
            else some (conn_id, message)
          | none => some (conn_id, message)
        else none

/-- The typed view of an inbound `data["operation"]` payload (a JSON
object): `none` in `type_str` or `position` models a missing key
(Python raises `KeyError` on `data["operation"]["type"]` /
`["position"]`), while `content` and `length` are read with `.get`
and so default to `None`. -/
structure RawOperationPayload where
  type_str : Option String := none
  position : Option Nat := none
  content : Option (List Char) := none
  length : Option Nat := none
deriving DecidableEq

/-- An inbound `{"type": "operation"}` message: `operation := none`
models a missing `"operation"` key (a `KeyError`). -/
structure OperationMessage where
  document_id : Option String := none
  operation : Option RawOperationPayload := none
deriving DecidableEq

/-- `OperationType(value)`: the enum constructor raises `ValueError`
on an unknown value — modelled as `none`. -/
def parse_operation_type (s : String) : Option OperationType :=
  if s = "insert" then some OperationType.insert
  else if s = "delete" then some OperationType.delete
  else if s = "retain" then some OperationType.retain
  else if s = "attributes" then some OperationType.attributes
  else none

/-- The `Operation(...)` construction of `_handle_operation` (source
lines 536-542).  Returns `none` exactly when the source raises
(missing `"operation"` object, missing `"type"` or `"position"` key,
unknown operation type) — the surrounding `try` then logs and leaves
all state untouched.  `now` is the `datetime.now()` default timestamp
and `oid` the fresh `uuid4` `operation_id`. -/
def parse_operation (msg : OperationMessage) (uid : String) (now : Nat)
    (oid : String) : Option Operation :=
  match msg.operation with
  | none => none
  | some raw =>
    match raw.type_str with
    | none => none
    | some s =>
      match parse_operation_type s with
      | none => none
      | some t =>
        match raw.position with
        | none => none
        | some p =>
          some { type := t, position := p, content := raw.content,
                 length := raw.length, timestamp := now, user_id := uid,
                 operation_id := oid }

/-- `CollaborationEngine._apply_operational_transformation` (source
line 590): rebase the incoming operation against every pending
operation of a different user, keeping only the first component of
each transform result, then append the rebased operation to
`pending_operations` and trim that list to its last 10 entries.
`uuids` supplies the fresh `uuid4` draws consumed by the
`Operation(...)` constructions inside `transform_operation` (at most
two per call). -/
def apply_operational_transformation (document : DocumentState)
    (operation : Operation) (uuids : List String) :
    DocumentState × Operation :=
  let acc := document.pending_operations.foldl
    (fun (acc : Operation × List String) pending_op =>
      if pending_op.user_id ≠ operation.user_id then
        ((transform_operation acc.1 pending_op (acc.2.headD "")
            ((acc.2.drop 1).headD "")).1,
         acc.2.drop 2)
      else acc)
    (operation, uuids)
  let transformed_op := acc.1
  let appended := document.pending_operations ++ [transformed_op]
  let pending :=
    if appended.length > 10 then appended.drop (appended.length - 10)
    else appended
  ({ document with pending_operations := pending }, transformed_op)

/-- The success path of `_handle_operation` on the target document
(source lines 562-572): rebase, apply, bump the version, append to
the `operations` deque (maxlen 1000, dropping the oldest beyond
capacity) and touch `last_modified`. -/
def document_apply_step (document : DocumentState) (operation : Operation)
    (uuids : List String) (now : Nat) : DocumentState :=
  let p := apply_operational_transformation document operation uuids
  let new_ops := p.1.operations ++ [p.2]
  { p.1 with
    content := apply_operation p.1.content p.2
    version := p.1.version + 1
    operations :=
      if new_ops.length > 1000 then new_ops.drop (new_ops.length - 1000)
      else new_ops
    last_modified := now }

/-- The lazily created blank document of `_handle_operation` (source
lines 552-557). -/
def blank_document (document_id : String) : DocumentState :=
  { document_id := document_id, content := [], version := 0 }

/-- `CollaborationEngine._handle_operation` (source line 531) for a
message arriving on connection `conn`: parse the operation (any
exception leaves all state untouched), require a `document_id`
(`if not document_id:` also rejects the falsy empty string),
look up the workspace (`self.workspaces[...]` raises `KeyError` into
the same `except` if absent), lazily create the document, transform
and apply, then broadcast the rebased operation to the workspace
excluding the sender.  Returns the new state and the sends
performed. -/
def handle_operation (st : EngineState) (conn : ConnectionState)
    (msg : OperationMessage) (now : Nat) (oid : String) (uuids : List String) :
    EngineState × List (String × OutMessage) :=
  match parse_operation msg conn.user_id now oid with
  | none => (st, [])
  | some operation =>
    match msg.document_id with
    | none => (st, [])
    | some document_id =>
      if document_id = "" then (st, [])
      else
      match st.workspaces.lookup conn.workspace_id with
      | none => (st, [])
      | some workspace =>
        let document :=
          match workspace.documents.lookup document_id with
          | some d => d
          | none => blank_document document_id
        let p := apply_operational_transformation document operation uuids
        let document2 := document_apply_step document operation uuids now
        let workspace' :=
          { workspace with
            documents := dict_set document_id document2 workspace.documents }
        let st' :=
          { st with
            workspaces := dict_set conn.workspace_id workspace' st.workspaces }
        (st',
         broadcast_to_workspace st conn.workspace_id
           (OutMessage.operation_broadcast document_id p.2)
           (some conn.user_id))

/-- An inbound `cursor_move` message: all payload fields are read
with `.get(..., 0)` / `.get("document_id")`. -/
structure CursorMessage where
  document_id : Option String := none
  position : Option Nat := none
  selection_start : Option Nat := none
  selection_end : Option Nat := none
deriving DecidableEq

/-- `CollaborationEngine._handle_cursor_move` (source line 635):
update the sender's own presence fields in place and broadcast a
`cursor_update` excluding the sender; a missing workspace raises
`KeyError` into the message loop's catch-all (no mutation), a missing
presence entry makes the handler a no-op. -/
def handle_cursor_move (st : EngineState) (conn : ConnectionState)
    (msg : CursorMessage) (now : Nat) :
    EngineState × List (String × OutMessage) :=
  match st.workspaces.lookup conn.workspace_id with
  | none => (st, [])
  | some workspace =>
    match workspace.active_users.lookup conn.user_id with
    | none => (st, [])
    | some user_presence =>
      let user_presence' :=
        { user_presence with
          cursor_position := msg.position.getD 0
          selection_start := msg.selection_start.getD 0
          selection_end := msg.selection_end.getD 0
          last_seen := now }
      let workspace' :=
        { workspace with
          active_users :=
            dict_set conn.user_id user_presence' workspace.active_users }
      let st' :=
        { st with
          workspaces := dict_set conn.workspace_id workspace' st.workspaces }
      (st',
       broadcast_to_workspace st' conn.workspace_id
         (OutMessage.cursor_update conn.user_id msg.document_id
           (msg.position.getD 0) (msg.selection_start.getD 0)
           (msg.selection_end.getD 0))
         (some conn.user_id))

/-- The `presence_update` dispatch target: `_handle_collaboration_message`
(source line 524) calls `self._handle_presence_update(connection, data)`,
but no such method is defined anywhere in the class, so the dispatch
raises `AttributeError` before touching any state; the message loop's
`except Exception` (source line 426) catches and logs it.  The net
observable effect is: no state change, nothing sent. -/
def handle_presence_update (st : EngineState) (conn : ConnectionState) :
    EngineState × List (String × OutMessage) :=
  (st, [])

/-- `CollaborationEngine._cleanup_connection` (source line 696):
deregister the connection from all three registries; if the user has
no connection left at all (`self.user_connections[user_id]` empty —
note: across **all** workspaces), remove the user's presence from the
connection's workspace and broadcast `user_left` to the remaining
connections. -/
def cleanup_connection (st : EngineState) (connection_id : String) :
    EngineState × List (String × OutMessage) :=
  match st.connections.lookup connection_id with
  | none => (st, [])
  | some connection =>
    let user_id := connection.user_id
    let workspace_id := connection.workspace_id
    let st1 := { st with connections := dict_del connection_id st.connections }
    let uc := (st1.user_connections.lookup user_id).getD []
    let uc' := if connection_id ∈ uc then uc.erase connection_id else uc
    let st2 :=
      { st1 with user_connections := dict_set user_id uc' st1.user_connections }
    let wc := (st2.workspace_connections.lookup workspace_id).getD []
    let wc' := if connection_id ∈ wc then wc.erase connection_id else wc
    let st3 :=
      { st2 with
        workspace_connections :=
          dict_set workspace_id wc' st2.workspace_connections }
    if uc' = [] then
      match st3.workspaces.lookup workspace_id with
      | some workspace =>
        if (workspace.active_users.lookup user_id).isSome then
          let workspace' :=
            { workspace with
              active_users := dict_del user_id workspace.active_users }
          let st4 :=
            { st3 with
              workspaces := dict_set workspace_id workspace' st3.workspaces }
          (st4,
           broadcast_to_workspace st4 workspace_id
             (OutMessage.user_left user_id) none)
        else (st3, [])
      | none => (st3, [])
    else (st3, [])

/-- `CollaborationEngine._send_initial_state` (source line 485): the
snapshot message listing every active user's
`(user_id, username, status, avatar_color, cursor_position)` and the
known document ids. -/
def send_initial_state (workspace : WorkspaceState) : OutMessage :=
  OutMessage.initial_state workspace.workspace_id workspace.name
    (workspace.active_users.map fun p =>
      (p.2.user_id, p.2.username, p.2.status, p.2.avatar_color,
        p.2.cursor_position))
    (workspace.documents.map fun p => p.1)

/-- `CollaborationEngine._add_user_to_workspace` (source line 470):
register a fresh Online presence for a joining user.  The avatar
color comes from `_generate_avatar_color`, which hashes with Python's
salted `hash` — nondeterministic across runs — so it is a parameter
here. -/
def add_user_to_workspace (workspace : WorkspaceState)
    (uid uname avatar_color : String) (now : Nat) : WorkspaceState :=
  let presence : UserPresence :=
    { user_id := uid, username := uname, status := PresenceStatus.online,
      avatar_color := avatar_color }
  { workspace with
    active_users := dict_set uid presence workspace.active_users
    last_activity := now }

/-- The `active_users` payload of an `initial_state` message. -/
def initial_state_users (m : OutMessage) :
    List (String × String × PresenceStatus × String × Nat) :=
  match m with
  | OutMessage.initial_state _ _ active_users _ => active_users
  | _ => []

/-! Lookup lemmas for the dictionary model. -/

theorem lookup_dict_set_self {β : Type} (k : String) (v : β)
    (l : List (String × β)) : (dict_set k v l).lookup k = some v := by
  induction l with
  | nil => simp [dict_set]
  | cons p rest ih =>
    obtain ⟨k', v'⟩ := p
    by_cases h : k' = k
    · subst h
      simp [dict_set, List.lookup_cons]
    · have hb : (k == k') = false := beq_false_of_ne (Ne.symm h)
      rw [show dict_set k v ((k', v') :: rest) = (k', v') :: dict_set k v rest
        from by simp [dict_set, h]]
      rw [List.lookup_cons, hb]
      exact ih

theorem lookup_dict_set_ne {β : Type} (k : String) (v : β)
    (l : List (String × β)) (u : String) (h : u ≠ k) :
    (dict_set k v l).lookup u = l.lookup u := by
  induction l with
  | nil => simp [dict_set, List.lookup_cons, beq_false_of_ne h]
  | cons p rest ih =>
    obtain ⟨k', v'⟩ := p
    by_cases hp : k' = k
    · subst hp
      rw [show dict_set k' v ((k', v') :: rest) = (k', v) :: rest
        from by simp [dict_set]]
      rw [List.lookup_cons, List.lookup_cons, beq_false_of_ne h]
    · rw [show dict_set k v ((k', v') :: rest) = (k', v') :: dict_set k v rest
        from by simp [dict_set, hp]]
      rw [List.lookup_cons, List.lookup_cons]
      cases hbeq : u == k'
      · exact ih
      · rfl

theorem lookup_dict_del_self {β : Type} (k : String)
    (l : List (String × β)) : (dict_del k l).lookup k = none := by
  induction l with
  | nil => simp [dict_del]
  | cons p rest ih =>
    obtain ⟨k', v'⟩ := p
    by_cases hp : k' = k
    · have hb : (k' != k) = false := by
        simp [hp]
      simpa [dict_del, List.filter, hb] using ih
    · have hb : (k' != k) = true := by
        simp [hp]
      rw [show dict_del k ((k', v') :: rest) = (k', v') :: dict_del k rest
        from by simp [dict_del, List.filter, hb]]
      rw [List.lookup_cons, beq_false_of_ne (Ne.symm hp)]
      exact ih

theorem lookup_dict_del_ne {β : Type} (k : String)
    (l : List (String × β)) (u : String) (h : u ≠ k) :
    (dict_del k l).lookup u = l.lookup u := by
  induction l with
  | nil => simp [dict_del]
  | cons p rest ih =>
    obtain ⟨k', v'⟩ := p
    by_cases hp : k' = k
    · subst hp
      have hb : (k' != k') = false := by
        simp
      rw [show dict_del k' ((k', v') :: rest) = dict_del k' rest
        from by simp [dict_del, List.filter, hb]]
      rw [List.lookup_cons, beq_false_of_ne h]
      exact ih
    · have hb : (k' != k) = true := by
        simp [hp]
      rw [show dict_del k ((k', v') :: rest) = (k', v') :: dict_del k rest
        from by simp [dict_del, List.filter, hb]]
      rw [List.lookup_cons, List.lookup_cons]
      cases hbeq : u == k'
      · exact ih
      · rfl

/-- The parse-stage rejection path of `_handle_operation`: any message
whose operation fails to parse (missing object, missing type or
position, unknown type), that lacks a `document_id`, or whose
workspace is unknown, leaves all state untouched and sends nothing. -/
theorem handle_operation_rejected (st : EngineState) (conn : ConnectionState)
    (msg : OperationMessage) (now : Nat) (oid : String) (uuids : List String)
    (h : parse_operation msg conn.user_id now oid = none ∨
      msg.document_id = none ∨ msg.document_id = some "" ∨
      st.workspaces.lookup conn.workspace_id = none) :
    handle_operation st conn msg now oid uuids = (st, []) := by
  rcases h with h | h | h | h
  · simp [handle_operation, h]
  · cases hp : parse_operation msg conn.user_id now oid <;>
      simp [handle_operation, hp, h]
  · cases hp : parse_operation msg conn.user_id now oid <;>
      simp [handle_operation, hp, h]
  · cases hp : parse_operation msg conn.user_id now oid <;>
      cases hd : msg.document_id <;>
      simp [handle_operation, hp, hd, h]

/-- Claim C5 counterexample: an operation whose fields are
inconsistent with its type is NOT rejected.  An `insert` carrying no
`content` parses fine (only `type` and `position` are accessed with
`[]`; `content`/`length` use `.get`), so it is applied — the target
document is created, its version becomes 1 — and it is broadcast to
the other user's connection, contradicting "rejected ... document
state left completely unchanged and nothing is broadcast". -/
theorem inconsistent_operation_not_rejected :
    (handle_operation
        { connections := [("c1", { user_id := "u", username := "n", workspace_id := "w" }),
                          ("c2", { user_id := "u2", username := "n2", workspace_id := "w" })]
          user_connections := [("u", ["c1"]), ("u2", ["c2"])]
          workspace_connections := [("w", ["c1", "c2"])]
          workspaces := [("w", { workspace_id := "w", name := "W" })] }
        { user_id := "u", username := "n", workspace_id := "w" }
        { document_id := some "d",
          operation := some { type_str := some "insert", position := some 0 } }
        0 "oid" []).1 ≠
      { connections := [("c1", { user_id := "u", username := "n", workspace_id := "w" }),
                        ("c2", { user_id := "u2", username := "n2", workspace_id := "w" })]
        user_connections := [("u", ["c1"]), ("u2", ["c2"])]
        workspace_connections := [("w", ["c1", "c2"])]
        workspaces := [("w", { workspace_id := "w", name := "W" })] } ∧
    (((handle_operation
        { connections := [("c1", { user_id := "u", username := "n", workspace_id := "w" }),
                          ("c2", { user_id := "u2", username := "n2", workspace_id := "w" })]
          user_connections := [("u", ["c1"]), ("u2", ["c2"])]
          workspace_connections := [("w", ["c1", "c2"])]
          workspaces := [("w", { workspace_id := "w", name := "W" })] }
        { user_id := "u", username := "n", workspace_id := "w" }
        { document_id := some "d",
          operation := some { type_str := some "insert", position := some 0 } }
        0 "oid" []).1.workspaces.lookup "w").bind
        (fun w => w.documents.lookup "d")).map DocumentState.version = some 1 ∧
    (handle_operation
        { connections := [("c1", { user_id := "u", username := "n", workspace_id := "w" }),
                          ("c2", { user_id := "u2", username := "n2", workspace_id := "w" })]
          user_connections := [("u", ["c1"]), ("u2", ["c2"])]
          workspace_connections := [("w", ["c1", "c2"])]
          workspaces := [("w", { workspace_id := "w", name := "W" })] }
        { user_id := "u", username := "n", workspace_id := "w" }
        { document_id := some "d",
          operation := some { type_str := some "insert", position := some 0 } }
        0 "oid" []).2 ≠ [] := by
  refine ⟨?_, ?_, ?_⟩ <;> decide

/-- Claim C5 (amended): inbound operation messages that are malformed
at the parse stage — a missing `operation` object, a missing `type`
or `position` field, an unknown operation type — and messages lacking
a `document_id` (or carrying the falsy empty string) or naming an
unknown workspace, are rejected with
only a local log: every document's state (content, version,
pendingOperations, recentOperations) is left completely unchanged and
nothing is broadcast.  (Operations whose optional fields are merely
inconsistent with their type are not rejected; see the
counterexample.) -/
theorem malformed_operation_atomicity (st : EngineState)
    (conn : ConnectionState) (msg : OperationMessage) (now : Nat)
    (oid : String) (uuids : List String)
    (h : parse_operation msg conn.user_id now oid = none ∨
      msg.document_id = none ∨ msg.document_id = some "" ∨
      st.workspaces.lookup conn.workspace_id = none) :
    handle_operation st conn msg now oid uuids = (st, []) :=
  handle_operation_rejected st conn msg now oid uuids h

/-- Witness for the amended C5 theorem: a message with the unknown
operation type `"bogus"` leaves a concrete one-connection state
untouched and broadcasts nothing. -/
theorem malformed_operation_atomicity_witness :
    handle_operation
        { connections := [("c1", { user_id := "u", username := "n", workspace_id := "w" })]
          user_connections := [("u", ["c1"])]
          workspace_connections := [("w", ["c1"])]
          workspaces := [("w", { workspace_id := "w", name := "W" })] }
        { user_id := "u", username := "n", workspace_id := "w" }
        { document_id := some "d",
          operation := some { type_str := some "bogus", position := some 0 } }
        0 "oid" [] =
      ({ connections := [("c1", { user_id := "u", username := "n", workspace_id := "w" })]
         user_connections := [("u", ["c1"])]
         workspace_connections := [("w", ["c1"])]
         workspaces := [("w", { workspace_id := "w", name := "W" })] }, []) :=
  malformed_operation_atomicity
    { connections := [("c1", { user_id := "u", username := "n", workspace_id := "w" })]
      user_connections := [("u", ["c1"])]
      workspace_connections := [("w", ["c1"])]
      workspaces := [("w", { workspace_id := "w", name := "W" })] }
    { user_id := "u", username := "n", workspace_id := "w" }
    { document_id := some "d",
      operation := some { type_str := some "bogus", position := some 0 } }
    0 "oid" [] (Or.inl (by decide))

/-- `_apply_operational_transformation` writes only
`pending_operations`; every other document field is untouched. -/
theorem apply_ot_preserves (document : DocumentState) (operation : Operation)
    (uuids : List String) :
    (apply_operational_transformation document operation uuids).1.content =
        document.content ∧
      (apply_operational_transformation document operation uuids).1.version =
        document.version ∧
      (apply_operational_transformation document operation uuids).1.operations =
        document.operations ∧
      (apply_operational_transformation document operation uuids).1.document_id =
        document.document_id ∧
      (apply_operational_transformation document operation uuids).1.last_modified =
        document.last_modified := by
  simp [apply_operational_transformation]

/-- Claim C10: rebasing an incoming operation against the pending
buffer never modifies the stored pending operations.  Only the first
component of each `transform_operation` result is folded into the
rebased operation (the transformed counterparts of the pending
operations are discarded); the new buffer is exactly the old entries,
unmodified and in order, with the rebased operation appended, trimmed
to the last 10 (`drop` of the excess is the capacity-10 FIFO trim —
when the buffer held fewer than 10 entries nothing is dropped); and
no other document field changes. -/
theorem rebase_keeps_pending_entries (document : DocumentState)
    (operation : Operation) (uuids : List String) :
    (apply_operational_transformation document operation uuids).1.pending_operations =
      (document.pending_operations ++
          [(apply_operational_transformation document operation uuids).2]).drop
        (document.pending_operations.length + 1 - 10) ∧
    (apply_operational_transformation document operation uuids).1.content =
      document.content ∧
    (apply_operational_transformation document operation uuids).1.version =
      document.version ∧
    (apply_operational_transformation document operation uuids).1.operations =
      document.operations ∧
    (apply_operational_transformation document operation uuids).1.document_id =
      document.document_id := by
  refine ⟨?_, (apply_ot_preserves document operation uuids).1,
    (apply_ot_preserves document operation uuids).2.1,
    (apply_ot_preserves document operation uuids).2.2.1,
    (apply_ot_preserves document operation uuids).2.2.2.1⟩
  simp only [apply_operational_transformation, List.length_append,
    List.length_cons, List.length_nil]
  split_ifs with hlen
  · congr 1
  · rw [show document.pending_operations.length + 1 - 10 = 0 from by omega]
    simp

/-- The success path of `_handle_operation` in closed form. -/
theorem handle_operation_success (st : EngineState) (conn : ConnectionState)
    (msg : OperationMessage) (now : Nat) (oid : String) (uuids : List String)
    (operation : Operation) (document_id : String) (workspace : WorkspaceState)
    (hp : parse_operation msg conn.user_id now oid = some operation)
    (hd : msg.document_id = some document_id) (hde : document_id ≠ "")
    (hw : st.workspaces.lookup conn.workspace_id = some workspace) :
    handle_operation st conn msg now oid uuids =
      ({ st with
          workspaces := dict_set conn.workspace_id
            { workspace with
              documents := dict_set document_id
                (document_apply_step
                  (match workspace.documents.lookup document_id with
                   | some d => d
                   | none => blank_document document_id)
                  operation uuids now)
                workspace.documents }
            st.workspaces },
       broadcast_to_workspace st conn.workspace_id
         (OutMessage.operation_broadcast document_id
           (apply_operational_transformation
             (match workspace.documents.lookup document_id with
              | some d => d
              | none => blank_document document_id)
             operation uuids).2)
         (some conn.user_id)) := by
  simp [handle_operation, hp, hd, hde, hw]

/-- Applying a document step bumps the version by exactly one. -/
theorem document_apply_step_version (d : DocumentState) (op : Operation)
    (us : List String) (now : Nat) :
    (document_apply_step d op us now).version = d.version + 1 := by
  simp [document_apply_step, apply_operational_transformation]

/-- The version of workspace `wid`'s document `did` (0 when the
workspace or document does not exist — a lazily created document
starts at version 0). -/
def doc_version (st : EngineState) (wid did : String) : Nat :=
  match st.workspaces.lookup wid with
  | none => 0
  | some w =>
    match w.documents.lookup did with
    | none => 0
    | some d => d.version

/-- A cursor move leaves every workspace's document map untouched. -/
theorem handle_cursor_move_documents (st : EngineState)
    (conn : ConnectionState) (cmsg : CursorMessage) (now : Nat) (wid : String) :
    ((handle_cursor_move st conn cmsg now).1.workspaces.lookup wid).map
        WorkspaceState.documents =
      (st.workspaces.lookup wid).map WorkspaceState.documents := by
  cases hw : st.workspaces.lookup conn.workspace_id with
  | none => simp [handle_cursor_move, hw]
  | some workspace =>
    cases hp : workspace.active_users.lookup conn.user_id with
    | none => simp [handle_cursor_move, hw, hp]
    | some user_presence =>
      by_cases hwid : wid = conn.workspace_id
      · subst hwid
        simp [handle_cursor_move, hw, hp, lookup_dict_set_self]
      · simp [handle_cursor_move, hw, hp, lookup_dict_set_ne _ _ _ _ hwid]

/-- Connection cleanup leaves every workspace's document map
untouched. -/
theorem cleanup_connection_documents (st : EngineState) (cid wid : String) :
    ((cleanup_connection st cid).1.workspaces.lookup wid).map
        WorkspaceState.documents =
      (st.workspaces.lookup wid).map WorkspaceState.documents := by
  cases hc : st.connections.lookup cid with
  | none => simp [cleanup_connection, hc]
  | some connection =>
    simp only [cleanup_connection, hc]
    cases hw : st.workspaces.lookup connection.workspace_id with
    | none => split_ifs <;> simp [hw]
    | some workspace =>
      dsimp only
      by_cases hwid : wid = connection.workspace_id
      · subst hwid
        split_ifs <;> simp [hw, lookup_dict_set_self]
      · split_ifs <;> simp [hw, lookup_dict_set_ne _ _ _ _ hwid]

/-- Equal document maps give equal document versions. -/
theorem doc_version_eq_of_documents_eq (st1 st2 : EngineState)
    (wid did : String)
    (h : (st1.workspaces.lookup wid).map WorkspaceState.documents =
      (st2.workspaces.lookup wid).map WorkspaceState.documents) :
    doc_version st1 wid did = doc_version st2 wid did := by
  cases e1 : st1.workspaces.lookup wid <;> cases e2 : st2.workspaces.lookup wid <;>
    rw [e1, e2] at h <;> simp at h <;> simp [doc_version, e1, e2]
  rw [h]

/-- Claim C9: presence isolation.  A `cursor_move` changes no
document map (hence no document's content or version), changes no
other user's presence entry, and rewrites the sender's own presence
entry only in its cursor position, selection bounds and last-seen
fields; a `presence_update` (whose handler does not exist in the
source — the `AttributeError` is caught by the message loop) changes
nothing and sends nothing. -/
theorem presence_isolation (st : EngineState) (conn : ConnectionState)
    (cmsg : CursorMessage) (now : Nat) :
    (∀ wid, ((handle_cursor_move st conn cmsg now).1.workspaces.lookup wid).map
        WorkspaceState.documents =
      (st.workspaces.lookup wid).map WorkspaceState.documents) ∧
    (∀ wid uid, uid ≠ conn.user_id →
      ((handle_cursor_move st conn cmsg now).1.workspaces.lookup wid).map
          (fun w => w.active_users.lookup uid) =
        (st.workspaces.lookup wid).map (fun w => w.active_users.lookup uid)) ∧
    (∀ workspace user_presence,
      st.workspaces.lookup conn.workspace_id = some workspace →
      workspace.active_users.lookup conn.user_id = some user_presence →
      ∃ workspace',
        (handle_cursor_move st conn cmsg now).1.workspaces.lookup
            conn.workspace_id = some workspace' ∧
        workspace'.active_users.lookup conn.user_id = some
          { user_presence with
            cursor_position := cmsg.position.getD 0
            selection_start := cmsg.selection_start.getD 0
            selection_end := cmsg.selection_end.getD 0
            last_seen := now }) ∧
    handle_presence_update st conn = (st, []) := by
  refine ⟨handle_cursor_move_documents st conn cmsg now, ?_, ?_, rfl⟩
  · intro wid uid huid
    cases hw : st.workspaces.lookup conn.workspace_id with
    | none => simp [handle_cursor_move, hw]
    | some workspace =>
      cases hp : workspace.active_users.lookup conn.user_id with
      | none => simp [handle_cursor_move, hw, hp]
      | some user_presence =>
        by_cases hwid : wid = conn.workspace_id
        · subst hwid
          simp [handle_cursor_move, hw, hp, lookup_dict_set_self,
            lookup_dict_set_ne _ _ _ _ huid]
        · simp [handle_cursor_move, hw, hp, lookup_dict_set_ne _ _ _ _ hwid]
  · intro workspace user_presence hw hp
    refine ⟨{ workspace with
        active_users := dict_set conn.user_id
          { user_presence with
            cursor_position := cmsg.position.getD 0
            selection_start := cmsg.selection_start.getD 0
            selection_end := cmsg.selection_end.getD 0
            last_seen := now }
          workspace.active_users }, ?_, ?_⟩
    · simp only [handle_cursor_move, hw, hp]
      exact lookup_dict_set_self _ _ _
    · exact lookup_dict_set_self _ _ _

/-- Claim C7: the version counter invariant.  An operation message
changes any document's version either not at all or by exactly +1
(never decreasing it); the version increments exactly on the
successfully applied operation's target document; rejected operation
messages, cursor moves, presence updates and connection cleanup
leave every document version unchanged (broadcast fan-out computes
messages and touches no state at all). -/
theorem version_counter_invariant (st : EngineState) (conn : ConnectionState)
    (msg : OperationMessage) (cmsg : CursorMessage) (now : Nat) (oid : String)
    (uuids : List String) (cid wid did : String) :
    (doc_version (handle_operation st conn msg now oid uuids).1 wid did =
        doc_version st wid did ∨
      doc_version (handle_operation st conn msg now oid uuids).1 wid did =
        doc_version st wid did + 1) ∧
    (∀ operation workspace,
      parse_operation msg conn.user_id now oid = some operation →
      msg.document_id = some did → did ≠ "" →
      st.workspaces.lookup conn.workspace_id = some workspace →
      doc_version (handle_operation st conn msg now oid uuids).1
          conn.workspace_id did =
        doc_version st conn.workspace_id did + 1) ∧
    (parse_operation msg conn.user_id now oid = none ∨
        msg.document_id = none ∨ msg.document_id = some "" ∨
        st.workspaces.lookup conn.workspace_id = none →
      (handle_operation st conn msg now oid uuids).1 = st) ∧
    doc_version (handle_cursor_move st conn cmsg now).1 wid did =
      doc_version st wid did ∧
    (handle_presence_update st conn).1 = st ∧
    doc_version (cleanup_connection st cid).1 wid did =
      doc_version st wid did := by
  have hsucc : ∀ (operation : Operation) (document_id : String)
      (workspace : WorkspaceState),
      parse_operation msg conn.user_id now oid = some operation →
      msg.document_id = some document_id → document_id ≠ "" →
      st.workspaces.lookup conn.workspace_id = some workspace →
      doc_version (handle_operation st conn msg now oid uuids).1
          conn.workspace_id document_id =
        doc_version st conn.workspace_id document_id + 1 := by
    intro operation document_id workspace hp hd hde hw
    rw [handle_operation_success st conn msg now oid uuids operation document_id
      workspace hp hd hde hw]
    simp only [doc_version, hw, lookup_dict_set_self]
    cases hdoc : workspace.documents.lookup document_id with
    | none =>
      simp [hdoc, lookup_dict_set_self, document_apply_step_version,
        blank_document]
    | some d =>
      simp [hdoc, lookup_dict_set_self, document_apply_step_version]
  refine ⟨?_, fun operation workspace hp hd hde hw =>
      hsucc operation did workspace hp hd hde hw, ?_, ?_, rfl, ?_⟩
  · cases hp : parse_operation msg conn.user_id now oid with
    | none =>
      left
      rw [handle_operation_rejected st conn msg now oid uuids (Or.inl hp)]
    | some operation =>
      cases hd : msg.document_id with
      | none =>
        left
        rw [handle_operation_rejected st conn msg now oid uuids (Or.inr (Or.inl hd))]
      | some document_id =>
        cases hw : st.workspaces.lookup conn.workspace_id with
        | none =>
          left
          rw [handle_operation_rejected st conn msg now oid uuids
            (Or.inr (Or.inr (Or.inr hw)))]
        | some workspace =>
          by_cases hde : document_id = ""
          · left
            rw [handle_operation_rejected st conn msg now oid uuids
              (Or.inr (Or.inr (Or.inl (hde ▸ hd))))]
          · by_cases hwid : wid = conn.workspace_id
            · subst hwid
              by_cases hdid : did = document_id
              · subst hdid
                right
                exact hsucc operation did workspace hp hd hde hw
              · left
                rw [handle_operation_success st conn msg now oid uuids operation
                  document_id workspace hp hd hde hw]
                simp only [doc_version, hw, lookup_dict_set_self]
                rw [lookup_dict_set_ne _ _ _ _ hdid]
            · left
              rw [handle_operation_success st conn msg now oid uuids operation
                document_id workspace hp hd hde hw]
              simp only [doc_version]
              rw [lookup_dict_set_ne _ _ _ _ hwid]
  · intro h
    rw [handle_operation_rejected st conn msg now oid uuids h]
  · exact doc_version_eq_of_documents_eq _ _ _ _
      (handle_cursor_move_documents st conn cmsg now wid)
  · exact doc_version_eq_of_documents_eq _ _ _ _
      (cleanup_connection_documents st cid wid)

/-- One inbound operation for a document, with the fresh uuids and
clock reading consumed by its processing. -/
structure DocInput where
  operation : Operation
  uuids : List String
  now : Nat
deriving DecidableEq

/-- The reachable states of one document: the serialized fold of the
`_handle_operation` success path (`document_apply_step`, exactly what
`handle_operation` runs) from the lazily created blank document. -/
def document_run (document_id : String) (inputs : List DocInput) :
    DocumentState :=
  inputs.foldl
    (fun d i => document_apply_step d i.operation i.uuids i.now)
    (blank_document document_id)

/-- The `operations` and `content` fields written by one document
step. -/
theorem document_apply_step_fields (d : DocumentState) (op : Operation)
    (us : List String) (now : Nat) :
    (document_apply_step d op us now).operations =
      (if (d.operations ++ [(apply_operational_transformation d op us).2]).length > 1000
       then (d.operations ++ [(apply_operational_transformation d op us).2]).drop
         ((d.operations ++ [(apply_operational_transformation d op us).2]).length - 1000)
       else d.operations ++ [(apply_operational_transformation d op us).2]) ∧
    (document_apply_step d op us now).content =
      apply_operation d.content (apply_operational_transformation d op us).2 := by
  constructor
  · simp only [document_apply_step]
    rw [(apply_ot_preserves d op us).2.2.1]
  · simp only [document_apply_step]
    rw [(apply_ot_preserves d op us).1]

/-- Invariant of the document state machine: the `operations` deque
holds the last `min(#applied, 1000)` operations, and while no
eviction has happened the content is the fold of the deque over the
empty string. -/
theorem document_run_invariant (document_id : String) (inputs : List DocInput) :
    (document_run document_id inputs).operations.length =
        min inputs.length 1000 ∧
      (inputs.length ≤ 1000 →
        (document_run document_id inputs).content =
          (document_run document_id inputs).operations.foldl
            apply_operation []) := by
  induction inputs using List.reverseRecOn with
  | nil => simp [document_run, blank_document]
  | append_singleton xs x ih =>
    obtain ⟨hlen, hcontent⟩ := ih
    have estep : document_run document_id (xs ++ [x]) =
        document_apply_step (document_run document_id xs) x.operation
          x.uuids x.now := by
      simp [document_run, List.foldl_append]
    obtain ⟨hops, hcont⟩ := document_apply_step_fields
      (document_run document_id xs) x.operation x.uuids x.now
    rw [estep]
    constructor
    · rw [hops]
      split_ifs with h
      · simp only [List.length_drop, List.length_append, List.length_cons,
          List.length_nil] at h ⊢
        omega
      · simp only [List.length_append, List.length_cons, List.length_nil] at h ⊢
        omega
    · intro hle
      simp only [List.length_append, List.length_cons, List.length_nil] at hle
      have hxs : xs.length ≤ 1000 := by omega
      have hnotrim :
          ¬ (document_run document_id xs).operations.length + 1 > 1000 := by
        omega
      rw [hops, hcont]
      rw [if_neg (by
        simp only [List.length_append, List.length_cons, List.length_nil]
        omega)]
      rw [List.foldl_append]
      simp only [List.foldl_cons, List.foldl_nil]
      rw [hcontent hxs]

/-- Claim C8 (amended): in every reachable `DocumentState` in which
at most 1000 operations have been applied (so the capacity-1000
`operations` deque has evicted nothing), `content` equals the fold of
`recentOperations`, in application order, via `apply_operation` over
the empty string.  Beyond 1000 applied operations the FIFO eviction
invalidates the equation (see the counterexample). -/
theorem content_equals_fold_of_bounded_history (document_id : String)
    (inputs : List DocInput) (h : inputs.length ≤ 1000) :
    (document_run document_id inputs).content =
      (document_run document_id inputs).operations.foldl apply_operation [] :=
  (document_run_invariant document_id inputs).2 h

/-- The concrete operation used to exercise the document history:
user `"u"` inserts `"a"` at position 0. -/
def sample_insert : Operation :=
  { type := OperationType.insert
    position := 0
    content := some ['a']
    user_id := "u" }

/-- The corresponding document input (no uuid draws are consumed:
all pending operations are the same user's). -/
def sample_input : DocInput :=
  { operation := sample_insert, uuids := [], now := 0 }

/-- Witness for the amended C8 theorem: after one applied insert the
content `"a"` equals the fold of the one stored operation. -/
theorem content_equals_fold_witness :
    (document_run "doc" [sample_input]).content =
      (document_run "doc" [sample_input]).operations.foldl
        apply_operation [] :=
  content_equals_fold_of_bounded_history "doc" [sample_input] (by decide)

/-- The rebase fold skips every pending operation of the same user,
leaving the incoming operation and the uuid supply untouched. -/
theorem fold_transform_same_user (operation : Operation)
    (pending : List Operation) (uuids : List String)
    (h : ∀ p ∈ pending, p.user_id = operation.user_id) :
    pending.foldl
      (fun (acc : Operation × List String) pending_op =>
        if pending_op.user_id ≠ operation.user_id then
          ((transform_operation acc.1 pending_op (acc.2.headD "")
              ((acc.2.drop 1).headD "")).1,
           acc.2.drop 2)
        else acc)
      (operation, uuids) = (operation, uuids) := by
  induction pending with
  | nil => rfl
  | cons p rest ih =>
    simp only [List.foldl_cons]
    rw [if_neg (not_not_intro (h p (List.mem_cons_self p rest)))]
    exact ih fun q hq => h q (List.mem_cons_of_mem p hq)

/-- When every pending operation belongs to the incoming operation's
user, the rebase is the identity: the operation is appended as-is. -/
theorem apply_ot_same_user (d : DocumentState) (operation : Operation)
    (uuids : List String)
    (h : ∀ p ∈ d.pending_operations, p.user_id = operation.user_id) :
    apply_operational_transformation d operation uuids =
      ({ d with
          pending_operations :=
            if (d.pending_operations ++ [operation]).length > 10 then
              (d.pending_operations ++ [operation]).drop
                ((d.pending_operations ++ [operation]).length - 10)
            else d.pending_operations ++ [operation] },
       operation) := by
  simp only [apply_operational_transformation,
    fold_transform_same_user operation d.pending_operations uuids h]

/-- Appending one more copy to a replicate and trimming to `cap` is a
replicate of the capped successor length. -/
theorem trim_replicate_append (x : Operation) (m cap : Nat) :
    (if (List.replicate m x ++ [x]).length > cap then
        (List.replicate m x ++ [x]).drop
          ((List.replicate m x ++ [x]).length - cap)
      else List.replicate m x ++ [x]) =
      List.replicate (min (m + 1) cap) x := by
  rw [← List.replicate_succ']
  simp only [List.length_replicate]
  split_ifs with h
  · rw [List.drop_replicate]
    congr 1
    omega
  · congr 1
    omega

/-- The closed form of the document reached by `n` copies of
`sample_input`: content `replicate n 'a'`, version `n`, the last
`min n 1000` operations and the last `min n 10` pending entries. -/
def sample_doc (n : Nat) : DocumentState :=
  { document_id := "doc"
    content := List.replicate n 'a'
    version := n
    operations := List.replicate (min n 1000) sample_insert
    pending_operations := List.replicate (min n 10) sample_insert
    last_modified := 0 }

theorem sample_step (n : Nat) :
    document_apply_step (sample_doc n) sample_insert [] 0 =
      sample_doc (n + 1) := by
  have hpend : ∀ p ∈ (sample_doc n).pending_operations,
      p.user_id = sample_insert.user_id := by
    intro p hp
    have hp' : p ∈ List.replicate (min n 10) sample_insert := hp
    rw [List.eq_of_mem_replicate hp']
  simp only [document_apply_step,
    apply_ot_same_user (sample_doc n) sample_insert [] hpend]
  simp only [sample_doc]
  rw [show apply_operation (List.replicate n 'a') sample_insert =
      List.replicate (n + 1) 'a' from by
    simp [apply_operation, sample_insert, List.replicate_succ]]
  rw [trim_replicate_append sample_insert (min n 1000) 1000,
    trim_replicate_append sample_insert (min n 10) 10]
  rw [show min (min n 1000 + 1) 1000 = min (n + 1) 1000 from by omega,
    show min (min n 10 + 1) 10 = min (n + 1) 10 from by omega]

theorem sample_run_closed_form (n : Nat) :
    document_run "doc" (List.replicate n sample_input) = sample_doc n := by
  induction n with
  | zero => rfl
  | succ n ih =>
    rw [List.replicate_succ']
    have estep : document_run "doc"
        (List.replicate n sample_input ++ [sample_input]) =
        document_apply_step (document_run "doc" (List.replicate n sample_input))
          sample_input.operation sample_input.uuids sample_input.now := by
      simp [document_run, List.foldl_append]
    rw [estep, ih]
    exact sample_step n

/-- Folding `k` copies of `sample_insert` over `s` prepends `k`
copies of `'a'`. -/
theorem fold_sample_insert (k : Nat) :
    ∀ s : List Char,
      (List.replicate k sample_insert).foldl apply_operation s =
        List.replicate k 'a' ++ s := by
  induction k with
  | zero =>
    intro s
    rfl
  | succ k ih =>
    intro s
    rw [List.replicate_succ, List.foldl_cons]
    rw [show apply_operation s sample_insert = 'a' :: s from by
      simp [apply_operation, sample_insert]]
    rw [ih ('a' :: s)]
    rw [List.replicate_succ', List.append_assoc, List.singleton_append]

/-- Claim C8 counterexample: the content/history coherence invariant
fails in a reachable state.  After 1001 applied inserts the document
content is `replicate 1001 'a'` but the capacity-1000 `operations`
deque has evicted the oldest entry, so folding `recentOperations`
over the empty string yields only `replicate 1000 'a'`. -/
theorem content_fold_mismatch_after_eviction :
    (document_run "doc" (List.replicate 1001 sample_input)).content ≠
      (document_run "doc" (List.replicate 1001 sample_input)).operations.foldl
        apply_operation [] := by
  rw [sample_run_closed_form 1001]
  simp only [sample_doc]
  rw [show min 1001 1000 = 1000 from by omega]
  rw [fold_sample_insert 1000 []]
  intro h
  have hlen := congrArg List.length h
  simp only [List.length_replicate, List.length_append, List.length_nil] at hlen
  omega

/-- Deleting a user's presence key removes every snapshot occurrence
of their id, provided the presence map is key-consistent. -/
theorem user_id_not_mem_dict_del (l : List (String × UserPresence)) (u : String)
    (hcons : ∀ p ∈ l, p.2.user_id = p.1) :
    u ∉ (dict_del u l).map fun p => p.2.user_id := by
  induction l with
  | nil => simp [dict_del]
  | cons p rest ih =>
    obtain ⟨k, v⟩ := p
    have hv : v.user_id = k := hcons (k, v) (List.mem_cons_self _ _)
    have ih' := ih fun q hq => hcons q (List.mem_cons_of_mem _ hq)
    by_cases hk : k = u
    · have hb : (k != u) = false := by
        simp [hk]
      simpa [dict_del, List.filter, hb] using ih'
    · have hb : (k != u) = true := by
        simp [hk]
      rw [show dict_del u ((k, v) :: rest) = (k, v) :: dict_del u rest
        from by simp [dict_del, List.filter, hb]]
      simp only [List.map_cons, List.mem_cons]
      rintro (h | h)
      · rw [hv] at h
        exact hk h.symm
      · exact ih' h

/-- Adding a different user's presence keeps an absent id absent. -/
theorem not_mem_map_dict_set (l : List (String × UserPresence))
    (u k : String) (v : UserPresence) (hv : v.user_id ≠ u)
    (h : u ∉ l.map fun p => p.2.user_id) :
    u ∉ (dict_set k v l).map fun p => p.2.user_id := by
  induction l with
  | nil =>
    simp [dict_set]
    exact fun heq => hv heq.symm
  | cons p rest ih =>
    obtain ⟨k', v'⟩ := p
    simp only [List.map_cons, List.mem_cons] at h
    push_neg at h
    by_cases hk : k' = k
    · rw [show dict_set k v ((k', v') :: rest) = (k, v) :: rest
        from by simp [dict_set, hk]]
      simp only [List.map_cons, List.mem_cons]
      rintro (heq | heq)
      · exact hv heq.symm
      · exact h.2 (List.mem_map.mpr (by
          obtain ⟨q, hq, hqe⟩ := List.mem_map.mp heq
          exact ⟨q, hq, hqe⟩))
    · rw [show dict_set k v ((k', v') :: rest) = (k', v') :: dict_set k v rest
        from by simp [dict_set, hk]]
      simp only [List.map_cons, List.mem_cons]
      rintro (heq | heq)
      · exact h.1 heq
      · exact ih h.2 heq

/-- In a best-effort fan-out over a duplicate-free connection list,
a connection that passes the send filter receives the message exactly
once. -/
theorem count_one_of_filterMap_sends (conns : List String)
    (f : String → Option (String × OutMessage)) (cid : String)
    (m : OutMessage) (hf : ∀ c r, f c = some r → r.1 = c)
    (hnd : conns.Nodup) (hmem : cid ∈ conns) (hcid : f cid = some (cid, m)) :
    (conns.filterMap f).count (cid, m) = 1 := by
  induction conns with
  | nil => cases hmem
  | cons c rest ih =>
    rcases List.mem_cons.mp hmem with heq | hmem'
    · subst heq
      have hnotin : (cid, m) ∉ rest.filterMap f := by
        intro hin
        obtain ⟨c', hc', hfc'⟩ := List.mem_filterMap.mp hin
        have hc'e : c' = cid := by
          have := hf c' (cid, m) hfc'
          simpa using this.symm
        subst hc'e
        exact (List.nodup_cons.mp hnd).1 hc'
      simp only [List.filterMap_cons, hcid]
      rw [List.count_cons_self, List.count_eq_zero.mpr hnotin]
    · have hc_ne : c ≠ cid := fun h => (List.nodup_cons.mp hnd).1 (h ▸ hmem')
      have ih' := ih (List.nodup_cons.mp hnd).2 hmem'
      cases hfc : f c with
      | none => simpa [List.filterMap_cons, hfc] using ih'
      | some r =>
        have hr : r.1 = c := hf c r hfc
        have hne : (cid, m) ≠ r := by
          intro h
          rw [← h] at hr
          exact hc_ne hr.symm
        simp only [List.filterMap_cons, hfc]
        rw [List.count_cons_of_ne hne]
        exact ih'

/-- In a duplicate-free workspace registry, an unexcluded active
connection receives a broadcast message exactly once. -/
theorem count_one_broadcast (st : EngineState) (wid : String) (m : OutMessage)
    (cid : String) (conn : ConnectionState)
    (hnd : ((st.workspace_connections.lookup wid).getD []).Nodup)
    (hmem : cid ∈ (st.workspace_connections.lookup wid).getD [])
    (hc : st.connections.lookup cid = some conn)
    (hact : conn.is_active = true) :
    (broadcast_to_workspace st wid m none).count (cid, m) = 1 := by
  simp only [broadcast_to_workspace]
  apply count_one_of_filterMap_sends _ _ cid m ?_ hnd hmem ?_
  · intro c r hr
    cases hl : st.connections.lookup c with
    | none =>
      rw [hl] at hr
      exact Option.noConfusion hr
    | some cc =>
      rw [hl] at hr
      dsimp only at hr
      split_ifs at hr
      simp only [Option.some.injEq] at hr
      rw [← hr]
  · simp [hc, hact]

/-- Claim C6 counterexample: closing a user's last connection **to a
workspace** does not remove their presence there when they still hold
a connection to another workspace.  User `u1` has connection `c1` in
workspace `w1` (their only one there — the filter shows `c1` is the
only `w1` connection owned by `u1`) and connection `c2` in `w2`;
user `u2` keeps `c3` in `w1`.  After `cleanup_connection` of `c1`,
the source checks `user_connections[u1]` across **all** workspaces
(still holding `c2`), so `u1`'s presence in `w1` survives, no
`user_left` is broadcast to `u2`, and `u1` still appears in a
subsequent `initial_state` snapshot. -/
theorem presence_kept_when_user_connected_elsewhere :
    (let st : EngineState :=
      { connections :=
          [("c1", { user_id := "u1", username := "n1", workspace_id := "w1" }),
           ("c2", { user_id := "u1", username := "n1", workspace_id := "w2" }),
           ("c3", { user_id := "u2", username := "n2", workspace_id := "w1" })]
        user_connections := [("u1", ["c1", "c2"]), ("u2", ["c3"])]
        workspace_connections := [("w1", ["c1", "c3"]), ("w2", ["c2"])]
        workspaces :=
          [("w1",
            { workspace_id := "w1", name := "W1"
              active_users :=
                [("u1", { user_id := "u1", username := "n1",
                          status := PresenceStatus.online }),
                 ("u2", { user_id := "u2", username := "n2",
                          status := PresenceStatus.online })] }),
           ("w2",
            { workspace_id := "w2", name := "W2"
              active_users :=
                [("u1", { user_id := "u1", username := "n1",
                          status := PresenceStatus.online })] })] }
    ((st.workspace_connections.lookup "w1").getD []).filter
        (fun cid2 => (st.connections.lookup cid2).map ConnectionState.user_id
          == some "u1") = ["c1"] ∧
    (cleanup_connection st "c1").2 = [] ∧
    (((cleanup_connection st "c1").1.workspaces.lookup "w1").map
      fun w => (w.active_users.lookup "u1").isSome) = some true ∧
    (((cleanup_connection st "c1").1.workspaces.lookup "w1").map
      fun w => decide ("u1" ∈ (initial_state_users (send_initial_state w)).map
        fun e => e.1)) = some true) := by
  refine ⟨?_, ?_, ?_, ?_⟩ <;> decide

/-- Claim C6 (amended): when a connection close leaves its user with
no connection at all (the source's condition: the global
`user_connections[user]` list becomes empty — not merely their last
connection to that workspace), the user's presence entry is removed
from the workspace's `active_users`; exactly one `user_left` message
for that user is sent to each remaining active connection registered
under that workspace (given a duplicate-free registry); and the user
no longer appears in any subsequent `initial_state` snapshot of that
workspace, also after a new joiner is added. -/
theorem cleanup_last_connection_removes_presence (st : EngineState)
    (connection_id : String) (connection : ConnectionState)
    (workspace : WorkspaceState) (user_presence : UserPresence)
    (hconn : st.connections.lookup connection_id = some connection)
    (hlast : (st.user_connections.lookup connection.user_id).getD [] =
      [connection_id])
    (hw : st.workspaces.lookup connection.workspace_id = some workspace)
    (hpres : workspace.active_users.lookup connection.user_id =
      some user_presence)
    (hkeys : ∀ p ∈ workspace.active_users, p.2.user_id = p.1) :
    (((cleanup_connection st connection_id).1.workspaces.lookup
        connection.workspace_id).map
      fun w => w.active_users.lookup connection.user_id) = some none ∧
    (cleanup_connection st connection_id).2 =
      broadcast_to_workspace (cleanup_connection st connection_id).1
        connection.workspace_id (OutMessage.user_left connection.user_id)
        none ∧
    (∀ cid2 conn2, cid2 ≠ connection_id →
      st.connections.lookup cid2 = some conn2 →
      conn2.is_active = true →
      cid2 ∈ (st.workspace_connections.lookup connection.workspace_id).getD [] →
      ((st.workspace_connections.lookup connection.workspace_id).getD []).Nodup →
      ((cleanup_connection st connection_id).2.count
        (cid2, OutMessage.user_left connection.user_id)) = 1) ∧
    (∀ workspace', (cleanup_connection st connection_id).1.workspaces.lookup
        connection.workspace_id = some workspace' →
      ∀ uid2 uname color now2, uid2 ≠ connection.user_id →
        connection.user_id ∉
          (initial_state_users (send_initial_state
            (add_user_to_workspace workspace' uid2 uname color now2))).map
            fun e => e.1) := by
  have hkey : cleanup_connection st connection_id =
      ({ st with
          connections := dict_del connection_id st.connections
          user_connections :=
            dict_set connection.user_id [] st.user_connections
          workspace_connections :=
            dict_set connection.workspace_id
              (if connection_id ∈
                  (st.workspace_connections.lookup connection.workspace_id).getD []
               then ((st.workspace_connections.lookup
                  connection.workspace_id).getD []).erase connection_id
               else (st.workspace_connections.lookup
                  connection.workspace_id).getD [])
              st.workspace_connections
          workspaces :=
            dict_set connection.workspace_id
              { workspace with
                active_users :=
                  dict_del connection.user_id workspace.active_users }
              st.workspaces },
       broadcast_to_workspace
        { st with
          connections := dict_del connection_id st.connections
          user_connections :=
            dict_set connection.user_id [] st.user_connections
          workspace_connections :=
            dict_set connection.workspace_id
              (if connection_id ∈
                  (st.workspace_connections.lookup connection.workspace_id).getD []
               then ((st.workspace_connections.lookup
                  connection.workspace_id).getD []).erase connection_id
               else (st.workspace_connections.lookup
                  connection.workspace_id).getD [])
              st.workspace_connections
          workspaces :=
            dict_set connection.workspace_id
              { workspace with
                active_users :=
                  dict_del connection.user_id workspace.active_users }
              st.workspaces }
        connection.workspace_id (OutMessage.user_left connection.user_id)
        none) := by
    simp [cleanup_connection, hconn, hlast, hw, hpres]
  refine ⟨?_, ?_, ?_, ?_⟩
  · rw [hkey]
    simp [lookup_dict_set_self, lookup_dict_del_self]
  · rw [hkey]
  · intro cid2 conn2 hne hc2 hact hmem hnd
    rw [hkey]
    set wc := (st.workspace_connections.lookup connection.workspace_id).getD []
      with hwc
    have hmem' : cid2 ∈ (if connection_id ∈ wc then wc.erase connection_id
        else wc) := by
      split_ifs with hin
      · exact (List.mem_erase_of_ne hne).mpr hmem
      · exact hmem
    have hnd' : (if connection_id ∈ wc then wc.erase connection_id
        else wc).Nodup := by
      split_ifs with hin
      · exact hnd.erase connection_id
      · exact hnd
    apply count_one_broadcast _ _ _ cid2 conn2 ?_ ?_ ?_ hact
    · simpa [lookup_dict_set_self] using hnd'
    · simpa [lookup_dict_set_self] using hmem'
    · rw [show ({ st with
          connections := dict_del connection_id st.connections,
          user_connections :=
            dict_set connection.user_id [] st.user_connections,
          workspace_connections :=
            dict_set connection.workspace_id
              (if connection_id ∈ wc then wc.erase connection_id else wc)
              st.workspace_connections,
          workspaces :=
            dict_set connection.workspace_id
              { workspace with
                active_users :=
                  dict_del connection.user_id workspace.active_users }
              st.workspaces } : EngineState).connections =
        dict_del connection_id st.connections from rfl]
      rw [lookup_dict_del_ne connection_id st.connections cid2 hne]
      exact hc2
  · intro workspace' hw' uid2 uname color now2 huid2
    rw [hkey] at hw'
    simp only [lookup_dict_set_self, Option.some_inj] at hw'
    subst hw'
    simp only [add_user_to_workspace, send_initial_state, initial_state_users]
    rw [List.map_map]
    exact not_mem_map_dict_set _ _ _ _ (by simpa using huid2)
      (user_id_not_mem_dict_del workspace.active_users connection.user_id hkeys)

/-- Concrete state for exercising the amended C6 theorem: user `u1`
holds exactly one connection `c1`, bound to workspace `w1`, where
user `u2` also sits with connection `c3`. -/
def witness_connection : ConnectionState :=
  { user_id := "u1", username := "n1", workspace_id := "w1" }

def witness_workspace : WorkspaceState :=
  { workspace_id := "w1"
    name := "W1"
    active_users :=
      [("u1", { user_id := "u1", username := "n1",
                status := PresenceStatus.online }),
       ("u2", { user_id := "u2", username := "n2",
                status := PresenceStatus.online })] }

def witness_engine : EngineState :=
  { connections :=
      [("c1", witness_connection),
       ("c3", { user_id := "u2", username := "n2", workspace_id := "w1" })]
    user_connections := [("u1", ["c1"]), ("u2", ["c3"])]
    workspace_connections := [("w1", ["c1", "c3"])]
    workspaces := [("w1", witness_workspace)] }

/-- Witness for the amended C6 theorem at the concrete state: closing
`u1`'s only connection removes their presence, broadcasts `user_left`
exactly once to `u2`'s connection, and keeps `u1` out of later
snapshots. -/
theorem cleanup_removes_presence_witness :
    (((cleanup_connection witness_engine "c1").1.workspaces.lookup
        "w1").map fun w => w.active_users.lookup "u1") = some none ∧
    (cleanup_connection witness_engine "c1").2 =
      broadcast_to_workspace (cleanup_connection witness_engine "c1").1
        "w1" (OutMessage.user_left "u1") none ∧
    (∀ cid2 conn2, cid2 ≠ "c1" →
      witness_engine.connections.lookup cid2 = some conn2 →
      conn2.is_active = true →
      cid2 ∈ (witness_engine.workspace_connections.lookup "w1").getD [] →
      ((witness_engine.workspace_connections.lookup "w1").getD []).Nodup →
      ((cleanup_connection witness_engine "c1").2.count
        (cid2, OutMessage.user_left "u1")) = 1) ∧
    (∀ workspace', (cleanup_connection witness_engine "c1").1.workspaces.lookup
        "w1" = some workspace' →
      ∀ uid2 uname color now2, uid2 ≠ "u1" →
        "u1" ∉
          (initial_state_users (send_initial_state
            (add_user_to_workspace workspace' uid2 uname color now2))).map
            fun e => e.1) :=
  cleanup_last_connection_removes_presence witness_engine "c1"
    witness_connection witness_workspace
    { user_id := "u1", username := "n1", status := PresenceStatus.online }
    (by decide) (by decide) (by decide) (by decide) (by decide)

end Collab
